import Mathlib

/-!
# ssh-forwarder: a shallow embedding of the tunnelling core

The development follows the Go sources:

* `pkg/protocol/protocol.go`  : the wire messages (`namespace protocol`);
* `cmd/server/main.go`        : the server agent (`namespace server`);
* `cmd/client-wails/app.go`   : the client session coordinator (`namespace client`);
* the `done` channel of the two forwarding handlers (`namespace proxy`).

Conventions of the embedding.

* A Go `string` is a Lean `String`, that is, a string of valid UTF-8 (what
  the JSON and YAML decoders of the program produce); Go compares strings
  with `==` octet by octet, Lean character by character, and neither
  normalises, so the two equalities agree.
* `encoding/json` is embedded between Go values and JSON values (`json.Value`):
  field tags, `omitempty`, `null`, key matching, decoding into `any`. The
  printing and parsing of JSON text is the standard library's and is not
  part of the embedding.
* A Go slice is `Slice α := Option (List α)`; `none` is the `nil` slice.
* `int64` counters are integers; `atomic.AddInt64` wraps modulo `2^64`.
* Calls that leave the process (dialling, binding, writing to a stream,
  copying octets) take their outcome from an explicit environment record and
  leave an `Event` in a trace, so that "no dial was attempted" is a statement
  about the trace.
* The client's SSH connection is a `CountedConn`: the octets written and read
  on it while an outside call runs are given by the environment and counted
  into `BytesSent` and `BytesReceived` as the call is made.
-/

set_option autoImplicit false

/-- A Go slice: `none` is the `nil` slice, `some xs` a non-nil slice. -/
abbrev Slice (α : Type) := Option (List α)

/-- The elements a `for _, x := range s` loop visits, in order. -/
def Slice.elems {α : Type} : Slice α → List α
  | none => []
  | some xs => xs

namespace json

/-- A JSON value as `encoding/json` sees it between the text and the Go value.
Number literals are integer literals: the protocol's encoders emit no other. -/
inductive Value where
  | null
  | bool (b : Bool)
  | number (n : Int)
  | string (s : String)
  | array (xs : List Value)
  | object (kvs : List (String × Value))
deriving Repr

/-- What `Decode` stores in a destination of type `any`: `nil`, `bool`,
`float64`, `string`, `[]any` or `map[string]any`. A `float64` is kept as the
integer literal it was read from; a map is kept as its entries, one per key. -/
inductive GoAny where
  | nil
  | bool (b : Bool)
  | float64 (lit : Int)
  | string (s : String)
  | slice (xs : List GoAny)
  | map (kvs : List (String × GoAny))
deriving Repr

/-- The part of `float64` handling the embedding takes as given: which integer
literals `strconv.ParseFloat` accepts, and what `Marshal` prints for the
`float64` read from a literal. -/
structure Float64Model where
  inRange : Int → Bool
  print : Int → Value

/-- Assignment `m[k] = v` on a map kept as its list of entries. -/
def mapInsert {β : Type} (k : String) (v : β) : List (String × β) → List (String × β)
  | [] => [(k, v)]
  | (k2, v2) :: rest => if k2 = k then (k, v) :: rest else (k2, v2) :: mapInsert k v rest

/-- Insertion of an entry into a list of entries ordered by key. -/
def insertSorted {β : Type} (k : String) (v : β) : List (String × β) → List (String × β)
  | [] => [(k, v)]
  | (k2, v2) :: rest =>
    if k < k2 then (k, v) :: (k2, v2) :: rest else (k2, v2) :: insertSorted k v rest

/-- The entries of a map in the key order `Marshal` writes them. -/
def sortKeys {β : Type} : List (String × β) → List (String × β)
  | [] => []
  | (k, v) :: rest => insertSorted k v (sortKeys rest)

mutual
/-- Decoding of a JSON value into a destination of type `any`. -/
def decodeAny (f : Float64Model) : Value → Except String GoAny
  | .null => .ok .nil
  | .bool b => .ok (.bool b)
  | .number n =>
    if f.inRange n then .ok (.float64 n)
    else .error "json: cannot unmarshal number into Go value of type float64"
  | .string s => .ok (.string s)
  | .array xs =>
    match decodeAnyList f xs with
    | .error e => .error e
    | .ok vs => .ok (.slice vs)
  | .object kvs =>
    match decodeAnyFields f kvs [] with
    | .error e => .error e
    | .ok m => .ok (.map m)
/-- Decoding of the elements of an array into `[]any`. -/
def decodeAnyList (f : Float64Model) : List Value → Except String (List GoAny)
  | [] => .ok []
  | x :: xs =>
    match decodeAny f x with
    | .error e => .error e
    | .ok v =>
      match decodeAnyList f xs with
      | .error e => .error e
      | .ok vs => .ok (v :: vs)
/-- Decoding of the members of an object into `map[string]any`: a repeated
key overwrites. -/
def decodeAnyFields (f : Float64Model) :
    List (String × Value) → List (String × GoAny) → Except String (List (String × GoAny))
  | [], acc => .ok acc
  | (k, x) :: rest, acc =>
    match decodeAny f x with
    | .error e => .error e
    | .ok v => decodeAnyFields f rest (mapInsert k v acc)
end

mutual
/-- The JSON value `Marshal` writes for a value held in an `any`. -/
def marshalAny (f : Float64Model) : GoAny → Value
  | .nil => .null
  | .bool b => .bool b
  | .float64 n => f.print n
  | .string s => .string s
  | .slice xs => .array (marshalAnyList f xs)
  | .map kvs => .object (sortKeys (marshalAnyFields f kvs))
/-- The elements of a marshalled `[]any`. -/
def marshalAnyList (f : Float64Model) : List GoAny → List Value
  | [] => []
  | x :: xs => marshalAny f x :: marshalAnyList f xs
/-- The members of a marshalled `map[string]any`, before ordering. -/
def marshalAnyFields (f : Float64Model) : List (String × GoAny) → List (String × Value)
  | [] => []
  | (k, x) :: rest => (k, marshalAny f x) :: marshalAnyFields f rest
end

/-- Case folding of one character of an object key: ASCII letters to lower
case, and the two non-ASCII characters that fold onto `s` and `k`. -/
def foldRune (c : Char) : Char :=
  if c = Char.ofNat 0x17f then Char.ofNat 0x73
  else if c = Char.ofNat 0x212a then Char.ofNat 0x6b
  else c.toLower

/-- Case folding of an object key. -/
def foldName (s : String) : String := String.mk (s.data.map foldRune)

/-- Whether an object key selects the struct field with the given tag name:
exactly, or else up to case. The tag names of each struct of the protocol are
pairwise distinct up to case, so at most one field is selected. -/
def keyMatches (key tag : String) : Bool := key == tag || foldName key == foldName tag

/-- Decoding into a `string` field holding `cur`. -/
def decodeString (v : Value) (cur : String) : Except String String :=
  match v with
  | .string s => .ok s
  | .null => .ok cur
  | _ => .error "json: cannot unmarshal into Go value of type string"

/-- Decoding into a `bool` field holding `cur`. -/
def decodeBool (v : Value) (cur : Bool) : Except String Bool :=
  match v with
  | .bool b => .ok b
  | .null => .ok cur
  | _ => .error "json: cannot unmarshal into Go value of type bool"

/-- Decoding into an `int` field holding `cur`. -/
def decodeInt (v : Value) (cur : Int) : Except String Int :=
  match v with
  | .number n =>
    if -9223372036854775808 ≤ n ∧ n ≤ 9223372036854775807 then .ok n
    else .error "json: cannot unmarshal number into Go value of type int"
  | .null => .ok cur
  | _ => .error "json: cannot unmarshal into Go value of type int"

/-- Decoding of the members of an object into a struct, member by member. -/
def decodeFields {T : Type} (set : T → String → Value → Except String T) :
    List (String × Value) → T → Except String T
  | [], t => .ok t
  | (k, v) :: rest, t =>
    match set t k v with
    | .error e => .error e
    | .ok t2 => decodeFields set rest t2

/-- Decoding into a struct holding `cur`: `null` leaves it as it is, an object
sets the selected fields, anything else is a type error. -/
def decodeStruct {T : Type} (set : T → String → Value → Except String T)
    (v : Value) (cur : T) : Except String T :=
  match v with
  | .null => .ok cur
  | .object kvs => decodeFields set kvs cur
  | _ => .error "json: cannot unmarshal into Go value of struct type"

/-- Decoding of the elements of an array into a slice whose current elements
are `cur`: the element at an index the slice already has is decoded into the
value stored there, an element past its end into the zero value. -/
def decodeElems {T : Type} (decInto : Value → T → Except String T) (zero : T) :
    List Value → List T → Except String (List T)
  | [], _ => .ok []
  | x :: xs, cur =>
    match decInto x (cur.headD zero) with
    | .error e => .error e
    | .ok v =>
      match decodeElems decInto zero xs cur.tail with
      | .error e => .error e
      | .ok vs => .ok (v :: vs)

/-- Decoding into a slice field holding `cur`: an array is decoded element by
element over the current elements, `null` sets the slice to `nil`. -/
def decodeSlice {T : Type} (decInto : Value → T → Except String T) (zero : T)
    (v : Value) (cur : Slice T) : Except String (Slice T) :=
  match v with
  | .array xs =>
    match decodeElems decInto zero xs cur.elems with
    | .error e => .error e
    | .ok vs => .ok (some vs)
  | .null => .ok none
  | _ => .error "json: cannot unmarshal into Go value of slice type"

/-- The members an `omitempty` string field contributes. -/
def omitEmptyString (tag s : String) : List (String × Value) :=
  if s = "" then [] else [(tag, .string s)]

/-- The members an `omitempty` bool field contributes. -/
def omitEmptyBool (tag : String) (b : Bool) : List (String × Value) :=
  if b then [(tag, .bool true)] else []

/-- The members an `omitempty` int field contributes. -/
def omitEmptyInt (tag : String) (n : Int) : List (String × Value) :=
  if n = 0 then [] else [(tag, .number n)]

end json

namespace protocol

def MsgTypeHandshake : String := "handshake"

def MsgTypeConnect : String := "connect"

/-- The struct `HandshakeRequest` of `protocol.go`. -/
structure HandshakeRequest where
  Version : String
deriving DecidableEq, Repr

/-- The struct `PortConfig` of `protocol.go`; `LocalPort` is a Go `int`. -/
structure PortConfig where
  Name : String
  Target : String
  Description : String
  Static : Bool
  LocalPort : Int
deriving DecidableEq, Repr

/-- The struct `HandshakeResponse` of `protocol.go`. -/
structure HandshakeResponse where
  Version : String
  AllowedPorts : Slice PortConfig
  Error : String
deriving DecidableEq, Repr

/-- The struct `ConnectRequest` of `protocol.go`. -/
structure ConnectRequest where
  Target : String
deriving DecidableEq, Repr

/-- The struct `ConnectResponse` of `protocol.go`; the zero value is
`ConnectResponse{}`. -/
structure ConnectResponse where
  Success : Bool := false
  Error : String := ""
deriving DecidableEq, Repr

open json

/-- The dynamic values this program stores in `Message.Payload` (an `any`):
the two request structs on the sending side, and whatever `Decode` stored on
the receiving side. -/
inductive Payload where
  | handshakeRequest (r : HandshakeRequest)
  | connectRequest (r : ConnectRequest)
  | decoded (v : json.GoAny)
deriving Repr

/-- The struct `Message` of `protocol.go`. -/
structure Message where
  /-- The field `Type` (a reserved word here). -/
  Type_ : String
  Payload : Payload
deriving Repr

/-- Marshalling by the tags of `HandshakeRequest`. -/
def marshalHandshakeRequest (r : HandshakeRequest) : Value :=
  .object [("version", .string r.Version)]

/-- Marshalling by the tags of `PortConfig`; the last three are `omitempty`. -/
def marshalPortConfig (p : PortConfig) : Value :=
  .object ([("name", .string p.Name), ("target", .string p.Target)]
    ++ omitEmptyString "description" p.Description
    ++ omitEmptyBool "static" p.Static
    ++ omitEmptyInt "local_port" p.LocalPort)

/-- Marshalling of a `[]PortConfig`: `null` for the nil slice. -/
def marshalPorts : Slice PortConfig → Value
  | none => .null
  | some ps => .array (ps.map marshalPortConfig)

/-- Marshalling by the tags of `HandshakeResponse`; `error` is `omitempty`. -/
def marshalHandshakeResponse (r : HandshakeResponse) : Value :=
  .object ([("version", .string r.Version), ("allowed_ports", marshalPorts r.AllowedPorts)]
    ++ omitEmptyString "error" r.Error)

/-- Marshalling by the tags of `ConnectRequest`. -/
def marshalConnectRequest (r : ConnectRequest) : Value :=
  .object [("target", .string r.Target)]

/-- Marshalling by the tags of `ConnectResponse`; `error` is `omitempty`. -/
def marshalConnectResponse (r : ConnectResponse) : Value :=
  .object ([("success", .bool r.Success)] ++ omitEmptyString "error" r.Error)

/-- Marshalling of the value held in a `Payload`. -/
def marshalPayload (f : Float64Model) : Payload → Value
  | .handshakeRequest r => marshalHandshakeRequest r
  | .connectRequest r => marshalConnectRequest r
  | .decoded v => marshalAny f v

/-- Marshalling by the tags of `Message`. -/
def marshalMessage (f : Float64Model) (m : Message) : Value :=
  .object [("type", .string m.Type_), ("payload", marshalPayload f m.Payload)]

/-- One member of an object decoded into a `HandshakeRequest`. -/
def setHandshakeRequest (r : HandshakeRequest) (k : String) (v : Value) :
    Except String HandshakeRequest :=
  if keyMatches k "version" then
    match decodeString v r.Version with
    | .error e => .error e
    | .ok s => .ok { r with Version := s }
  else .ok r

/-- One member of an object decoded into a `PortConfig`. -/
def setPortConfig (p : PortConfig) (k : String) (v : Value) : Except String PortConfig :=
  if keyMatches k "name" then
    match decodeString v p.Name with
    | .error e => .error e
    | .ok s => .ok { p with Name := s }
  else if keyMatches k "target" then
    match decodeString v p.Target with
    | .error e => .error e
    | .ok s => .ok { p with Target := s }
  else if keyMatches k "description" then
    match decodeString v p.Description with
    | .error e => .error e
    | .ok s => .ok { p with Description := s }
  else if keyMatches k "static" then
    match decodeBool v p.Static with
    | .error e => .error e
    | .ok b => .ok { p with Static := b }
  else if keyMatches k "local_port" then
    match decodeInt v p.LocalPort with
    | .error e => .error e
    | .ok n => .ok { p with LocalPort := n }
  else .ok p

/-- The zero value of `PortConfig`. -/
def zeroPortConfig : PortConfig :=
  { Name := "", Target := "", Description := "", Static := false, LocalPort := 0 }

/-- Decoding into a zero `PortConfig`, as for a fresh slice element. -/
def unmarshalPortConfig (v : Value) : Except String PortConfig :=
  decodeStruct setPortConfig v zeroPortConfig

/-- One member of an object decoded into a `HandshakeResponse`. -/
def setHandshakeResponse (r : HandshakeResponse) (k : String) (v : Value) :
    Except String HandshakeResponse :=
  if keyMatches k "version" then
    match decodeString v r.Version with
    | .error e => .error e
    | .ok s => .ok { r with Version := s }
  else if keyMatches k "allowed_ports" then
    match decodeSlice (decodeStruct setPortConfig) zeroPortConfig v r.AllowedPorts with
    | .error e => .error e
    | .ok ps => .ok { r with AllowedPorts := ps }
  else if keyMatches k "error" then
    match decodeString v r.Error with
    | .error e => .error e
    | .ok s => .ok { r with Error := s }
  else .ok r

/-- One member of an object decoded into a `ConnectRequest`. -/
def setConnectRequest (r : ConnectRequest) (k : String) (v : Value) :
    Except String ConnectRequest :=
  if keyMatches k "target" then
    match decodeString v r.Target with
    | .error e => .error e
    | .ok s => .ok { r with Target := s }
  else .ok r

/-- One member of an object decoded into a `ConnectResponse`. -/
def setConnectResponse (r : ConnectResponse) (k : String) (v : Value) :
    Except String ConnectResponse :=
  if keyMatches k "success" then
    match decodeBool v r.Success with
    | .error e => .error e
    | .ok b => .ok { r with Success := b }
  else if keyMatches k "error" then
    match decodeString v r.Error with
    | .error e => .error e
    | .ok s => .ok { r with Error := s }
  else .ok r

/-- One member of an object decoded into a `Message`: the payload goes into
an `any`. -/
def setMessage (f : Float64Model) (m : Message) (k : String) (v : Value) :
    Except String Message :=
  if keyMatches k "type" then
    match decodeString v m.Type_ with
    | .error e => .error e
    | .ok s => .ok { m with Type_ := s }
  else if keyMatches k "payload" then
    match decodeAny f v with
    | .error e => .error e
    | .ok a => .ok { m with Payload := .decoded a }
  else .ok m

/-- Decoding into `var req HandshakeRequest`. -/
def unmarshalHandshakeRequest (v : Value) : Except String HandshakeRequest :=
  decodeStruct setHandshakeRequest v { Version := "" }

/-- Decoding into `var resp HandshakeResponse`, as in `performHandshake`. -/
def unmarshalHandshakeResponse (v : Value) : Except String HandshakeResponse :=
  decodeStruct setHandshakeResponse v { Version := "", AllowedPorts := none, Error := "" }

/-- Decoding into `var freq ConnectRequest`, as in `handleStream`. -/
def unmarshalConnectRequest (v : Value) : Except String ConnectRequest :=
  decodeStruct setConnectRequest v { Target := "" }

/-- Decoding into `var resp ConnectResponse`, as in `handleForwarding`. -/
def unmarshalConnectResponse (v : Value) : Except String ConnectResponse :=
  decodeStruct setConnectResponse v { Success := false, Error := "" }

/-- Decoding into `var msg Message`, as in `handleStream`. -/
def unmarshalMessage (f : Float64Model) (v : Value) : Except String Message :=
  decodeStruct (setMessage f) v { Type_ := "", Payload := .decoded .nil }

/-- A `PortConfig` whose `LocalPort` is a Go `int`. -/
def PortConfig.inRange (p : PortConfig) : Prop :=
  -9223372036854775808 ≤ p.LocalPort ∧ p.LocalPort ≤ 9223372036854775807

end protocol

namespace server

open protocol

/-- Two's-complement reduction of an integer to the `int64` range. -/
def wrapInt64 (x : Int) : Int :=
  (x + 9223372036854775808) % 18446744073709551616 - 9223372036854775808

/-- The value stored by `atomic.AddInt64(&v, delta)`. -/
def AddInt64 (v delta : Int) : Int := wrapInt64 (v + delta)

/-- The largest `int64`. -/
def maxInt64 : Int := 9223372036854775807

/-- The struct `Metrics` of `cmd/server/main.go`. -/
structure Metrics where
  ActiveStreams : Int := 0
  TotalStreams : Int := 0
  TotalBytes : Int := 0
  HandshakeCount : Int := 0
  ConnectCount : Int := 0
  ConnectErrors : Int := 0
  DeniedRequests : Int := 0
deriving DecidableEq, Repr

/-- The struct `ServerConfig`; durations are in nanoseconds. -/
structure ServerConfig where
  AllowedPorts : Slice PortConfig
  MaxStreams : Int
  IdleTimeout : Int
  ConnectTimeout : Int
  MetricsPort : Int
deriving DecidableEq, Repr

/-- The function `defaultConfig`. -/
def defaultConfig : ServerConfig :=
  { AllowedPorts := some []
    MaxStreams := 100
    IdleTimeout := 5 * 60 * 1000000000
    ConnectTimeout := 10 * 1000000000
    MetricsPort := 0 }

/-- The validation loop at the head of `handleConnect`:
`for _, p := range AllowedPorts { if p.Target == req.Target { allowed = true; break } }`. -/
def allowed : List PortConfig → String → Bool
  | [], _ => false
  | p :: ps, target => if p.Target = target then true else allowed ps target

/-- What `handleConnect` does to the outside world, in program order. -/
inductive Event where
  /-- `json.NewEncoder(stream).Encode(resp)` -/
  | encode (resp : ConnectResponse)
  /-- `dialer.Dial("tcp", target)` with the configured timeout -/
  | dial (target : String) (timeout : Int)
  /-- `io.CopyBuffer(targetConn, stream, buf)` returned `n` -/
  | copyUp (n : Nat)
  /-- `io.CopyBuffer(stream, targetConn, buf)` returned `n` -/
  | copyDown (n : Nat)
  /-- `conn.CloseWrite()` on the target connection -/
  | closeWriteTarget
  /-- `stream.Close()` by the downstream copier -/
  | closeStream
  /-- `targetConn.Close()` -/
  | closeTarget
deriving DecidableEq, Repr

/-- The outcomes of the calls `handleConnect` makes outside the process.
`dial` is `none` when the dial succeeds and the error text otherwise;
`encodeOk` tells whether writing a response to the stream succeeds; `up` and
`down` are the octet counts the two `io.CopyBuffer` calls return (an `int64`,
never negative); `upFirst` says which of the two copier goroutines finishes
first. -/
structure ConnEnv where
  dial : String → Option String
  encodeOk : ConnectResponse → Bool
  up : Nat
  down : Nat
  upFirst : Bool

/-- The upstream copier goroutine of `handleConnect`. A connection returned by
`Dial("tcp", _)` is a `*net.TCPConn`, so `CloseWrite` is always reached. -/
def copyUpstream (env : ConnEnv) (m : Metrics) : Metrics × List Event :=
  ({ m with TotalBytes := AddInt64 m.TotalBytes env.up },
   [Event.copyUp env.up, Event.closeWriteTarget])

/-- The downstream copier goroutine of `handleConnect`. -/
def copyDownstream (env : ConnEnv) (m : Metrics) : Metrics × List Event :=
  ({ m with TotalBytes := AddInt64 m.TotalBytes env.down },
   [Event.copyDown env.down, Event.closeStream])

/-- The method `Server.handleConnect`: the metrics on return and the trace of
outside calls. -/
def handleConnect (cfg : ServerConfig) (env : ConnEnv) (m : Metrics)
    (req : ConnectRequest) : Metrics × List Event :=
  if !allowed cfg.AllowedPorts.elems req.Target then
    let resp : ConnectResponse :=
      { Success := false, Error := "Target " ++ req.Target ++ " not allowed" }
    ({ m with DeniedRequests := AddInt64 m.DeniedRequests 1 }, [Event.encode resp])
  else
    match env.dial req.Target with
    | some err =>
      let resp : ConnectResponse := { Success := false, Error := "Dial failed: " ++ err }
      ({ m with ConnectErrors := AddInt64 m.ConnectErrors 1 },
       [Event.dial req.Target cfg.ConnectTimeout, Event.encode resp])
    | none =>
      let resp : ConnectResponse := { Success := true }
      if !env.encodeOk resp then
        (m, [Event.dial req.Target cfg.ConnectTimeout, Event.encode resp, Event.closeTarget])
      else
        let first := if env.upFirst then copyUpstream env m else copyDownstream env m
        let second :=
          if env.upFirst then copyDownstream env first.1 else copyUpstream env first.1
        (second.1,
         [Event.dial req.Target cfg.ConnectTimeout, Event.encode resp]
           ++ first.2 ++ second.2 ++ [Event.closeTarget])

/-- Whether a trace contains a dial. -/
def dialled : List Event → Bool
  | [] => false
  | Event.dial _ _ :: _ => true
  | _ :: rest => dialled rest

/-- The struct `Server`, with the channel `streamLimit` kept as its capacity
and the number of tokens it holds. -/
structure Server where
  config : ServerConfig
  streamLimitCap : Nat
  streamLimitLen : Nat
deriving DecidableEq, Repr

/-- The function `NewServer`: `make(chan struct{}, config.MaxStreams)` panics
on a negative size, which is `none` here. -/
def NewServer (config : ServerConfig) : Option Server :=
  if config.MaxStreams < 0 then none
  else some { config := config, streamLimitCap := config.MaxStreams.toNat, streamLimitLen := 0 }

/-- The send `s.streamLimit <- struct{}{}` inside a `select` with a `default`
branch: it is taken when the buffer has room. Every receive on this channel
is the `releaseStream` of a handler whose token is already in the buffer, so
no receiver ever waits on an empty channel and a send into a full (or
unbuffered) channel is never taken. -/
def trySend (s : Server) : Option Server :=
  if s.streamLimitLen < s.streamLimitCap then
    some { s with streamLimitLen := s.streamLimitLen + 1 }
  else none

/-- The receive `<-s.streamLimit`: `none` when it would block. -/
def receive (s : Server) : Option Server :=
  if 0 < s.streamLimitLen then some { s with streamLimitLen := s.streamLimitLen - 1 }
  else none

/-- What `Serve` does with an accepted stream. -/
inductive ServeEvent where
  /-- `go s.handleStream(stream)` -/
  | goHandleStream (stream : Nat)
  /-- `stream.Close()` in the `default` branch -/
  | closeStream (stream : Nat)
deriving DecidableEq, Repr

/-- The server process while `Serve` runs: the `Server`, the streams whose
`handleStream` goroutine has been started and has not yet run
`releaseStream`, the global `metrics`, and what `Serve` did so far. -/
structure ServeState where
  server : Server
  handlers : List Nat
  metrics : Metrics
  trace : List ServeEvent
deriving DecidableEq, Repr

/-- The body of the `for` loop of `Server.Serve` for one stream returned by
`s.session.Accept()`. -/
def Serve (st : ServeState) (stream : Nat) : ServeState :=
  match trySend st.server with
  | some srv =>
    { server := srv
      handlers := stream :: st.handlers
      metrics := { st.metrics with
        ActiveStreams := AddInt64 st.metrics.ActiveStreams 1
        TotalStreams := AddInt64 st.metrics.TotalStreams 1 }
      trace := st.trace ++ [ServeEvent.goHandleStream stream] }
  | none =>
    { st with
      metrics := { st.metrics with DeniedRequests := AddInt64 st.metrics.DeniedRequests 1 }
      trace := st.trace ++ [ServeEvent.closeStream stream] }

/-- The method `Server.releaseStream`, run (deferred) by the handler of
`stream` when it returns; `none` when the receive would block. -/
def releaseStream (st : ServeState) (stream : Nat) : Option ServeState :=
  match receive st.server with
  | none => none
  | some srv =>
    some { st with
      server := srv
      handlers := st.handlers.erase stream
      metrics := { st.metrics with ActiveStreams := AddInt64 st.metrics.ActiveStreams (-1) } }

/-- One step of the server process: `Serve` accepts a stream, or a running
handler returns. -/
inductive Step where
  | accept (stream : Nat)
  | handlerReturns (stream : Nat)
deriving DecidableEq, Repr

/-- The effect of a step; a handler that is not running cannot return. -/
def step (st : ServeState) : Step → Option ServeState
  | .accept stream => some (Serve st stream)
  | .handlerReturns stream =>
    if stream ∈ st.handlers then releaseStream st stream else none

/-- The effect of a schedule of steps. -/
def run (st : ServeState) : List Step → Option ServeState
  | [] => some st
  | a :: rest =>
    match step st a with
    | none => none
    | some st2 => run st2 rest

/-- The server process as `main` leaves it when it calls `server.Serve()`. -/
def start (config : ServerConfig) : Option ServeState :=
  match NewServer config with
  | none => none
  | some srv => some { server := srv, handlers := [], metrics := {}, trace := [] }

/-- A state the server process can be in: reached from `start` by a schedule. -/
def Reachable (config : ServerConfig) (st : ServeState) : Prop :=
  ∃ st0 steps, start config = some st0 ∧ run st0 steps = some st

/-- Whether `Serve` admitted the stream: it started a handler for it. -/
def admitted (st : ServeState) (stream : Nat) : Bool :=
  (Serve st stream).trace == st.trace ++ [ServeEvent.goHandleStream stream]

/-- The re-marshalling of `handleStream` on a connect message:
`payloadBytes, _ := json.Marshal(msg.Payload)` followed by
`json.Unmarshal(payloadBytes, &freq)`. -/
def connectPayload (f : json.Float64Model) (msg : Message) : Except String ConnectRequest :=
  unmarshalConnectRequest (marshalPayload f msg.Payload)

/-- The invariant of the server process under configuration `config`: the
channel has the configured capacity and holds one token per running handler. -/
def Inv (config : ServerConfig) (st : ServeState) : Prop :=
  0 ≤ config.MaxStreams
  ∧ st.server.streamLimitCap = config.MaxStreams.toNat
  ∧ st.server.streamLimitLen = st.handlers.length
  ∧ st.handlers.length ≤ st.server.streamLimitCap

end server

namespace client

open protocol

/-- The struct `ConnectRequest` of `app.go`. -/
structure ConnectRequest where
  Host : String
  User : String
  Pass : String
  KeyPath : String
  AgentPath : String
deriving DecidableEq, Repr

/-- The struct `ConnectResponse` of `app.go`; `Config` is a pointer. -/
structure ConnectResponse where
  Success : Bool := false
  Error : String := ""
  Config : Option HandshakeResponse := none
deriving DecidableEq, Repr

/-- A `net.Listener`: its identity and `ln.Addr().String()`. -/
structure Listener where
  id : Nat
  addr : String
deriving DecidableEq, Repr

/-- The calls the client makes outside the process, in program order. -/
inductive Event where
  /-- `ln.Close()` -/
  | closeListener (id : Nat)
  /-- `yamuxSession.Close()` -/
  | closeSession (id : Nat)
  /-- `sshClient.Close()` -/
  | closeClient (id : Nat)
  /-- `conn.Close()` on the dialled TCP connection -/
  | closeConn (id : Nat)
  /-- `stream.Close()` -/
  | closeStream (id : Nat)
  /-- `net.DialTimeout("tcp", host, timeout)` -/
  | dialTimeout (host : String)
  /-- `ssh.NewClientConn(countedConn, host, config)` -/
  | newClientConn (conn : Nat) (host user : String) (passwords : List String)
  /-- `client.NewSession()` -/
  | newSession (client : Nat)
  /-- `session.Start(cmd)` -/
  | startAgent (session : Nat) (cmd : String)
  /-- `yamux.Client(rwConn, cfg)` -/
  | yamuxClient (session : Nat)
  /-- `yamuxSession.Open()` -/
  | openStream (session : Nat)
  /-- `json.NewEncoder(stream).Encode(msg)` with `msg.Type` -/
  | encodeMessage (stream : Nat) (type : String)
  /-- `json.NewDecoder(stream).Decode(&resp)` -/
  | decodeResponse (stream : Nat)
  /-- `net.Listen("tcp", addr)` -/
  | listen (addr : String)
  /-- the accept loop started by `StartForward` for a listener and target -/
  | goAccept (listener : Nat) (target : String)
deriving DecidableEq, Repr

/-- The package-level state of `app.go` and `metrics.go` (`sshClient`,
`yamuxSession`, `listeners`, `globalMetrics`) with the trace of outside
calls. The map `listeners` is kept as its list of entries; Go leaves the
iteration order of a map unspecified, here it is the order of the list. -/
structure State where
  sshClient : Option Nat
  yamuxSession : Option Nat
  listeners : List (String × Listener)
  BytesSent : Nat
  BytesReceived : Nat
  trace : List Event
deriving DecidableEq, Repr

/-- The state `NewApp` leaves: an empty `listeners` map, nothing connected. -/
def NewApp : State :=
  { sshClient := none, yamuxSession := none, listeners := [],
    BytesSent := 0, BytesReceived := 0, trace := [] }

/-- The map read `listeners[k]`. -/
def mapLookup (k : String) : List (String × Listener) → Option Listener
  | [] => none
  | (k2, ln) :: rest => if k2 = k then some ln else mapLookup k rest

/-- The map update `delete(listeners, k)`. -/
def mapDelete (k : String) : List (String × Listener) → List (String × Listener)
  | [] => []
  | (k2, ln) :: rest => if k2 = k then mapDelete k rest else (k2, ln) :: mapDelete k rest

/-- The map update `listeners[k] = ln`. -/
def mapStore (k : String) (ln : Listener) :
    List (String × Listener) → List (String × Listener)
  | [] => [(k, ln)]
  | (k2, ln2) :: rest => if k2 = k then (k, ln) :: rest else (k2, ln2) :: mapStore k ln rest

/-- The function `addSent`: `atomic.AddUint64` wraps modulo `2^64`. -/
def addSent (n : Nat) (st : State) : State :=
  { st with BytesSent := (st.BytesSent + n) % 18446744073709551616 }

/-- The function `addReceived`. -/
def addReceived (n : Nat) (st : State) : State :=
  { st with BytesReceived := (st.BytesReceived + n) % 18446744073709551616 }

/-- The loop `for port, ln := range listeners { ln.Close(); delete(listeners, port) }`
of `disconnectLocked`, over the entries still to visit. -/
def closeListeners : List (String × Listener) → State → State
  | [], st => st
  | (port, ln) :: rest, st =>
    closeListeners rest
      { st with
        trace := st.trace ++ [Event.closeListener ln.id]
        listeners := mapDelete port st.listeners }

/-- Whether an outside call runs over the SSH connection, which `connectSSH`
wraps in a `CountedConn`: the SSH handshake and everything layered on the
client afterwards (session, agent, multiplexed session and its streams, and
their closes). The dial precedes the wrapping, `conn.Close()` and the local
listeners do not read or write it. -/
def overConnection : Event → Bool
  | .newClientConn _ _ _ _ => true
  | .newSession _ => true
  | .startAgent _ _ => true
  | .yamuxClient _ => true
  | .openStream _ => true
  | .encodeMessage _ _ => true
  | .decodeResponse _ => true
  | .closeStream _ => true
  | .closeSession _ => true
  | .closeClient _ => true
  | _ => false

/-- The methods `CountedConn.Write` and `CountedConn.Read` over the octets
`(written, read)` that pass while an outside call runs: `addSent` of the
first, `addReceived` of the second. -/
def count (octets : Nat × Nat) (st : State) : State :=
  addReceived octets.2 (addSent octets.1 st)

/-- An outside call: it is recorded in the trace and, when it runs over the
counted connection, the octets `traffic` gives for it are counted. -/
def outside (traffic : Event → Nat × Nat) (ev : Event) (st : State) : State :=
  if overConnection ev then count (traffic ev) { st with trace := st.trace ++ [ev] }
  else { st with trace := st.trace ++ [ev] }

/-- The counters `(BytesSent, BytesReceived)` after the outside calls `evs`. -/
def tally (traffic : Event → Nat × Nat) : List Event → Nat × Nat → Nat × Nat
  | [], c => c
  | ev :: rest, c =>
    tally traffic rest
      (if overConnection ev then
        ((c.1 + (traffic ev).1) % 18446744073709551616,
         (c.2 + (traffic ev).2) % 18446744073709551616)
       else c)

/-- The octets written on the counted connection during the outside calls `evs`. -/
def sentOn (traffic : Event → Nat × Nat) (evs : List Event) : Nat :=
  (evs.map (fun ev => if overConnection ev then (traffic ev).1 else 0)).sum

/-- The octets read on the counted connection during the outside calls `evs`. -/
def receivedOn (traffic : Event → Nat × Nat) (evs : List Event) : Nat :=
  (evs.map (fun ev => if overConnection ev then (traffic ev).2 else 0)).sum

/-- The outside calls made between the states `st` and `st2`. -/
def appended (st st2 : State) : List Event := st2.trace.drop st.trace.length

/-- The state `st2` comes from `st` by outside calls whose octets were counted. -/
def Extends (traffic : Event → Nat × Nat) (st st2 : State) : Prop :=
  ∃ evs, st2.trace = st.trace ++ evs
    ∧ (st2.BytesSent, st2.BytesReceived) = tally traffic evs (st.BytesSent, st.BytesReceived)

/-- The block `if yamuxSession != nil { yamuxSession.Close(); yamuxSession = nil }`. -/
def closeYamux (traffic : Event → Nat × Nat) (st : State) : State :=
  match st.yamuxSession with
  | some y => { outside traffic (Event.closeSession y) st with yamuxSession := none }
  | none => st

/-- The block `if sshClient != nil { sshClient.Close(); sshClient = nil }`. -/
def closeSSH (traffic : Event → Nat × Nat) (st : State) : State :=
  match st.sshClient with
  | some c => { outside traffic (Event.closeClient c) st with sshClient := none }
  | none => st

/-- The method `App.disconnectLocked`, with the octets counted on the SSH
connection during each outside call as `traffic`. -/
def disconnectLocked (traffic : Event → Nat × Nat) (st : State) : State :=
  closeSSH traffic (closeYamux traffic (closeListeners st.listeners st))

/-- The method `App.Disconnect`. -/
def Disconnect (traffic : Event → Nat × Nat) (st : State) : State × Bool :=
  (disconnectLocked traffic st, true)

/-- The outcomes of the calls `connectSSH` makes outside the process: each
gives the new handle or the text of the error; `traffic` gives the octets
`(written, read)` counted on the SSH connection while an outside call runs. -/
structure SSHEnv where
  dialTimeout : String → Except String Nat
  newClientConn : Nat → String → String → List String → Except String Nat
  newSession : Nat → Except String Nat
  startAgent : Nat → String → Option String
  yamuxClient : Nat → Except String Nat
  traffic : Event → Nat × Nat

/-- The `auths` of `connectSSH`: the password method when a password is given. -/
def passwordAuths (req : ConnectRequest) : List String :=
  if req.Pass ≠ "" then [req.Pass] else []

/-- The `cmd` of `connectSSH`: the agent path, `./server-agent` when empty,
followed by ` --stdio`. -/
def agentCommand (req : ConnectRequest) : String :=
  (if req.AgentPath = "" then "./server-agent" else req.AgentPath) ++ " --stdio"

/-- The function `connectSSH`: the state on return and the error, if any.
From `ssh.NewClientConn` on, every call runs over the `CountedConn`. -/
def connectSSH (env : SSHEnv) (req : ConnectRequest) (st : State) : State × Option String :=
  let st1 := outside env.traffic (Event.dialTimeout req.Host) st
  match env.dialTimeout req.Host with
  | .error e => (st1, some e)
  | .ok conn =>
    let st2 := outside env.traffic
      (Event.newClientConn conn req.Host req.User (passwordAuths req)) st1
    match env.newClientConn conn req.Host req.User (passwordAuths req) with
    | .error e => (outside env.traffic (Event.closeConn conn) st2, some e)
    | .ok c =>
      let st3 := outside env.traffic (Event.newSession c) { st2 with sshClient := some c }
      match env.newSession c with
      | .error e => (st3, some e)
      | .ok session =>
        let st4 := outside env.traffic (Event.startAgent session (agentCommand req)) st3
        match env.startAgent session (agentCommand req) with
        | some e => (st4, some e)
        | none =>
          let st5 := outside env.traffic (Event.yamuxClient session) st4
          match env.yamuxClient session with
          | .error e => (st5, some e)
          | .ok ysess => ({ st5 with yamuxSession := some ysess }, none)

/-- The outcomes of the calls `performHandshake` makes outside the process. -/
structure HandshakeEnv where
  openStream : Nat → Except String Nat
  encode : Nat → Option String
  decode : Nat → Except String HandshakeResponse

/-- The message `performHandshake` sends. -/
def handshakeMessage : Message :=
  { Type_ := MsgTypeHandshake, Payload := .handshakeRequest { Version := "2.0" } }

/-- The message `handleForwarding` sends for a target. -/
def connectMessage (target : String) : Message :=
  { Type_ := MsgTypeConnect, Payload := .connectRequest { Target := target } }

/-- The function `performHandshake`: `none` is the nil-pointer panic of
`yamuxSession.Open()` on an absent session; otherwise the state on return
and the response or the text of the error. The stream is carried by the SSH
connection, whose octets are counted as `traffic` gives them. -/
def performHandshake (traffic : Event → Nat × Nat) (env : HandshakeEnv) (st : State) :
    Option (State × Except String HandshakeResponse) :=
  match st.yamuxSession with
  | none => none
  | some y =>
    let st1 := outside traffic (Event.openStream y) st
    match env.openStream y with
    | .error e => some (st1, .error e)
    | .ok stream =>
      let st2 := outside traffic (Event.encodeMessage stream handshakeMessage.Type_) st1
      match env.encode stream with
      | some e => some (outside traffic (Event.closeStream stream) st2, .error e)
      | none =>
        let st3 := outside traffic (Event.decodeResponse stream) st2
        let st4 := outside traffic (Event.closeStream stream) st3
        match env.decode stream with
        | .error e => some (st4, .error e)
        | .ok resp =>
          if resp.Error ≠ "" then some (st4, .error ("Server Error: " ++ resp.Error))
          else some (st4, .ok resp)

/-- The method `App.ConnectSSH`; `none` is a panic. -/
def ConnectSSH (senv : SSHEnv) (henv : HandshakeEnv) (req : ConnectRequest) (st : State) :
    Option (State × ConnectResponse) :=
  let st1 := disconnectLocked senv.traffic st
  let st2 := { st1 with BytesSent := 0, BytesReceived := 0 }
  match connectSSH senv req st2 with
  | (st3, some err) => some (st3, { Success := false, Error := err })
  | (st3, none) =>
    match performHandshake senv.traffic henv st3 with
    | none => none
    | some (st4, .error err) =>
      some (disconnectLocked senv.traffic st4, { Success := false, Error := err })
    | some (st4, .ok resp) => some (st4, { Success := true, Config := some resp })

/-- The text of the error `StartForward` returns for a tracked address. -/
def errPortInUse : String := "Port already in use by this app"

/-- The method `App.StartForward`, with the outcome of `net.Listen("tcp", _)`
as `listen`: the state on return, the bound address and the error, if any. -/
def StartForward (listen : String → Except String Listener) (st : State)
    (localPort target : String) : State × String × Option String :=
  if localPort ≠ ":0" ∧ localPort ≠ "0" ∧ (mapLookup localPort st.listeners).isSome then
    (st, "", some errPortInUse)
  else
    let st1 := { st with trace := st.trace ++ [Event.listen localPort] }
    match listen localPort with
    | .error e => (st1, "", some ("Failed to listen: " ++ e))
    | .ok ln =>
      let boundAddr := ln.addr
      ({ st1 with
          listeners := mapStore boundAddr ln st1.listeners
          trace := st1.trace ++ [Event.goAccept ln.id target] },
       boundAddr, none)

/-- The method `App.StopForward`. -/
def StopForward (st : State) (localPort : String) : State × Bool :=
  match mapLookup localPort st.listeners with
  | none => (st, false)
  | some ln =>
    ({ st with
        trace := st.trace ++ [Event.closeListener ln.id]
        listeners := mapDelete localPort st.listeners },
     true)

/-- The method `App.GetStatus`, with `yamuxSession.IsClosed()` as `isClosed`. -/
def GetStatus (isClosed : Nat → Bool) (st : State) : Bool :=
  match st.sshClient, st.yamuxSession with
  | some _, some y => !isClosed y
  | _, _ => false

/-- A run of `StartForward` calls, each with its own outcome of `net.Listen`. -/
def startForwards :
    List ((String → Except String Listener) × String × String) → State → State
  | [], st => st
  | (listen, localPort, target) :: rest, st =>
    startForwards rest (StartForward listen st localPort target).1

/-- Whether a `ConnectSSH` call returned the failure `e` and left nothing
behind: `Success = false`, `Error = e`, no `Config`, and in the state no
transport handle, no session handle and an empty listener registry. -/
def rolledBack (out : Option (State × ConnectResponse)) (e : String) : Bool :=
  match out with
  | none => false
  | some (st, resp) =>
    resp == { Success := false, Error := e, Config := none }
      && st.sshClient.isNone && st.yamuxSession.isNone && st.listeners.isEmpty

/-- The state in which `ConnectSSH` calls `connectSSH`: the previous session
torn down and the two byte counters reset. -/
def resetForConnect (traffic : Event → Nat × Nat) (st : State) : State :=
  { disconnectLocked traffic st with BytesSent := 0, BytesReceived := 0 }

/-- An example of the octets `(written, read)` counted on the SSH connection
during each outside call of a connect: the SSH handshake and authentication,
the session, the start of the agent, and the handshake exchange. -/
def exampleTraffic : Event → Nat × Nat
  | .newClientConn _ _ _ _ => (2600, 2476)
  | .newSession _ => (52, 52)
  | .startAgent _ _ => (68, 52)
  | .openStream _ => (80, 0)
  | .encodeMessage _ _ => (160, 0)
  | .decodeResponse _ => (0, 336)
  | _ => (0, 0)

end client

namespace server

open protocol

/-- What a `handleStream` goroutine does, in program order. -/
inductive HandlerEvent where
  /-- `stream.SetDeadline(time.Now().Add(s.config.IdleTimeout))` -/
  | setDeadline (idleTimeout : Int)
  /-- `decoder.Decode(&msg)` -/
  | decodeMessage
  /-- `stream.SetDeadline(time.Time{})` -/
  | clearDeadline
  /-- `json.NewEncoder(stream).Encode(resp)` in `handleHandshake` -/
  | encodeHandshake (resp : HandshakeResponse)
  /-- an outside call of `handleConnect` -/
  | connect (ev : Event)
  /-- the deferred `stream.Close()` -/
  | closeStream
  /-- the deferred `s.releaseStream()` -/
  | releaseStream
deriving DecidableEq, Repr

/-- The outcomes of the calls `handleStream` makes outside the process:
`decode` is the JSON value `decoder.Decode` reads from the stream, or the
text of its read or syntax error; `handshakeEncodeOk` tells whether the
handshake response can be written; `conn` serves `handleConnect`. -/
structure StreamEnv where
  float64 : json.Float64Model
  decode : Except String json.Value
  handshakeEncodeOk : Bool
  conn : ConnEnv

/-- The method `Server.handleHandshake`: it writes the response and only logs
a write failure. -/
def handleHandshake (cfg : ServerConfig) : List HandlerEvent :=
  [HandlerEvent.encodeHandshake
    { Version := "2.0", AllowedPorts := cfg.AllowedPorts, Error := "" }]

/-- The body of `Server.handleStream` up to its `return`, without the two
deferred calls: the metrics on return and what it did. -/
def handleStreamBody (cfg : ServerConfig) (env : StreamEnv) (m : Metrics) :
    Metrics × List HandlerEvent :=
  let pre := [HandlerEvent.setDeadline cfg.IdleTimeout, HandlerEvent.decodeMessage]
  match env.decode with
  | .error _ => (m, pre)
  | .ok wire =>
    match unmarshalMessage env.float64 wire with
    | .error _ => (m, pre)
    | .ok msg =>
      if msg.Type_ = MsgTypeHandshake then
        ({ m with HandshakeCount := AddInt64 m.HandshakeCount 1 },
         pre ++ [HandlerEvent.clearDeadline] ++ handleHandshake cfg)
      else if msg.Type_ = MsgTypeConnect then
        let m1 := { m with ConnectCount := AddInt64 m.ConnectCount 1 }
        match connectPayload env.float64 msg with
        | .error _ => (m1, pre ++ [HandlerEvent.clearDeadline])
        | .ok freq =>
          let r := handleConnect cfg env.conn m1 freq
          (r.1, pre ++ [HandlerEvent.clearDeadline] ++ r.2.map HandlerEvent.connect)
      else (m, pre ++ [HandlerEvent.clearDeadline])

/-- The method `Server.handleStream` run by the handler of `stream`: the body,
then the deferred calls in reverse order of their `defer`, `stream.Close()`
and `s.releaseStream()`; `none` when the release would block. -/
def handleStream (st : ServeState) (env : StreamEnv) (stream : Nat) :
    Option (ServeState × List HandlerEvent) :=
  let body := handleStreamBody st.server.config env st.metrics
  match releaseStream { st with metrics := body.1 } stream with
  | none => none
  | some st2 => some (st2, body.2 ++ [HandlerEvent.closeStream, HandlerEvent.releaseStream])

/-- The ways out of `handleStream`. -/
inductive ExitPath where
  | decodeFailure
  | handshake
  | invalidPayload
  | deniedTarget
  | dialFailure
  | responseWriteFailure
  | proxied
  | unknownType
deriving DecidableEq, Repr

/-- The way out `handleStream` takes under the outcomes `env`. -/
def exitPath (cfg : ServerConfig) (env : StreamEnv) : ExitPath :=
  match env.decode with
  | .error _ => .decodeFailure
  | .ok wire =>
    match unmarshalMessage env.float64 wire with
    | .error _ => .decodeFailure
    | .ok msg =>
      if msg.Type_ = MsgTypeHandshake then .handshake
      else if msg.Type_ = MsgTypeConnect then
        match connectPayload env.float64 msg with
        | .error _ => .invalidPayload
        | .ok freq =>
          if !allowed cfg.AllowedPorts.elems freq.Target then .deniedTarget
          else
            match env.conn.dial freq.Target with
            | some _ => .dialFailure
            | none =>
              if !env.conn.encodeOk { Success := true } then .responseWriteFailure
              else .proxied
      else .unknownType

/-- An operation of the server process on its counters: `Serve` admits or
rejects an accepted stream, a handler runs the body of `handleStream`
(handshake, connect or neither), or a handler runs `releaseStream`. -/
inductive Op where
  | accept (stream : Nat)
  | handle (env : StreamEnv)
  | release (stream : Nat)

/-- The effect of an operation; `none` when a release would block. -/
def applyOp (st : ServeState) : Op → Option ServeState
  | .accept stream => some (Serve st stream)
  | .handle env => some { st with metrics := (handleStreamBody st.server.config env st.metrics).1 }
  | .release stream => releaseStream st stream

/-- The octets an operation can add to `TotalBytes`. -/
def Op.bytes : Op → Nat
  | .handle env => env.conn.up + env.conn.down
  | _ => 0

/-- An `int64` value. -/
def isInt64 (x : Int) : Prop := -9223372036854775808 ≤ x ∧ x ≤ 9223372036854775807

/-- The counters are `int64` values with room for one more operation: each
unit counter is below the largest `int64` and `TotalBytes` stays an `int64`
after `bytes` more octets. -/
def Metrics.room (m : Metrics) (bytes : Nat) : Prop :=
  isInt64 m.ActiveStreams ∧ m.ActiveStreams < maxInt64
  ∧ isInt64 m.TotalStreams ∧ m.TotalStreams < maxInt64
  ∧ isInt64 m.TotalBytes ∧ m.TotalBytes + bytes ≤ maxInt64
  ∧ isInt64 m.HandshakeCount ∧ m.HandshakeCount < maxInt64
  ∧ isInt64 m.ConnectCount ∧ m.ConnectCount < maxInt64
  ∧ isInt64 m.ConnectErrors ∧ m.ConnectErrors < maxInt64
  ∧ isInt64 m.DeniedRequests ∧ m.DeniedRequests < maxInt64

/-- No counter other than `ActiveStreams` is lower in `new` than in `old`. -/
def Metrics.notDecreased (old new : Metrics) : Prop :=
  old.TotalStreams ≤ new.TotalStreams
  ∧ old.TotalBytes ≤ new.TotalBytes
  ∧ old.HandshakeCount ≤ new.HandshakeCount
  ∧ old.ConnectCount ≤ new.ConnectCount
  ∧ old.ConnectErrors ≤ new.ConnectErrors
  ∧ old.DeniedRequests ≤ new.DeniedRequests

end server

namespace proxy

/-- The proxy phase of a forwarding handler: two copier goroutines, each of
which sends on `done` when its copy has returned, and the handler, which
passes a fixed number of `<-done` statements and then returns, running its
deferred closes. `done` has capacity 2, so neither send blocks. -/
structure State where
  upDone : Bool := false
  downDone : Bool := false
  doneLen : Nat := 0
  received : Nat := 0
  returned : Bool := false
deriving DecidableEq, Repr

/-- One step of the proxy phase. -/
inductive Step where
  /-- the upstream copier finishes its copy and sends on `done` -/
  | upFinishes
  /-- the downstream copier finishes its copy and sends on `done` -/
  | downFinishes
  /-- the handler passes one `<-done` -/
  | receive
  /-- the handler returns -/
  | handlerReturns
deriving DecidableEq, Repr

/-- The effect of a step for a handler with `receives` statements `<-done`;
`none` when the step cannot be taken. -/
def step (receives : Nat) (s : State) : Step → Option State
  | .upFinishes =>
    if s.upDone then none else some { s with upDone := true, doneLen := s.doneLen + 1 }
  | .downFinishes =>
    if s.downDone then none else some { s with downDone := true, doneLen := s.doneLen + 1 }
  | .receive =>
    if s.received < receives ∧ 0 < s.doneLen then
      some { s with doneLen := s.doneLen - 1, received := s.received + 1 }
    else none
  | .handlerReturns =>
    if s.received = receives ∧ s.returned = false then some { s with returned := true }
    else none

/-- The effect of a schedule of steps. -/
def run (receives : Nat) (s : State) : List Step → Option State
  | [] => some s
  | a :: rest =>
    match step receives s a with
    | none => none
    | some s2 => run receives s2 rest

/-- The number of copiers that have finished. -/
def finished (s : State) : Nat := (if s.upDone then 1 else 0) + (if s.downDone then 1 else 0)

/-- The invariant of the proxy phase: every token sent on `done` is in the
channel or has been received, and a handler that returned has passed all its
receives. -/
def Inv (receives : Nat) (s : State) : Prop :=
  s.doneLen + s.received = finished s
  ∧ s.received ≤ receives
  ∧ (s.returned = true → s.received = receives)

/-- A schedule that lets the proxy phase run to the handler's return from
`s`: the copiers that have not finished do, the handler passes its remaining
receives and returns. -/
def completion (receives : Nat) (s : State) : List Step :=
  (if s.upDone then [] else [Step.upFinishes])
    ++ (if s.downDone then [] else [Step.downFinishes])
    ++ List.replicate (receives - s.received) Step.receive
    ++ (if s.returned then [] else [Step.handlerReturns])

end proxy

namespace server

/-- The number of `<-done` statements `handleConnect` passes before it
returns: two. -/
def proxyReceives : Nat := 2

end server

namespace client

/-- The number of `<-done` statements `handleForwarding` passes before it
returns: one. -/
def proxyReceives : Nat := 1

/-- What `handleForwarding` does before the proxy phase, in program order. -/
inductive ForwardEvent where
  /-- `yamuxSession.Open()` -/
  | openStream (session : Nat)
  /-- `json.NewEncoder(stream).Encode(msg)` of the connect message for a target -/
  | encodeConnect (stream : Nat) (target : String)
  /-- `json.NewDecoder(stream).Decode(&resp)` -/
  | decodeResponse (stream : Nat)
  /-- the two copier goroutines are started -/
  | goCopy (stream localConn : Nat)
  /-- the deferred `stream.Close()` -/
  | closeStream (stream : Nat)
  /-- the deferred `localConn.Close()` -/
  | closeLocalConn (localConn : Nat)
deriving DecidableEq, Repr

/-- The outcomes of the calls `handleForwarding` makes outside the process. -/
structure ForwardEnv where
  openStream : Nat → Except String Nat
  encode : Nat → Option String
  decode : Nat → Except String protocol.ConnectResponse

/-- The function `handleForwarding` up to the proxy phase: what it did, and
the stream when the proxy phase is entered. On every way out before the
proxy phase the deferred closes have run; after the proxy phase they run
when the handler returns. -/
def handleForwarding (env : ForwardEnv) (st : State) (localConn : Nat) (target : String) :
    List ForwardEvent × Option Nat :=
  match st.yamuxSession with
  | none => ([ForwardEvent.closeLocalConn localConn], none)
  | some y =>
    match env.openStream y with
    | .error _ => ([ForwardEvent.openStream y, ForwardEvent.closeLocalConn localConn], none)
    | .ok stream =>
      let sent := [ForwardEvent.openStream y, ForwardEvent.encodeConnect stream target]
      let closes := [ForwardEvent.closeStream stream, ForwardEvent.closeLocalConn localConn]
      match env.encode stream with
      | some _ => (sent ++ closes, none)
      | none =>
        match env.decode stream with
        | .error _ => (sent ++ [ForwardEvent.decodeResponse stream] ++ closes, none)
        | .ok resp =>
          if !resp.Success then (sent ++ [ForwardEvent.decodeResponse stream] ++ closes, none)
          else
            (sent ++ [ForwardEvent.decodeResponse stream, ForwardEvent.goCopy stream localConn],
             some stream)

/-- An operation of the client on its state: a read or write of `n` octets
on the counted connection outside the calls below (forwarded data,
keepalives), or one of the methods of `App`. -/
inductive Op where
  | read (n : Nat)
  | write (n : Nat)
  | disconnect (traffic : Event → Nat × Nat)
  | startForward (listen : String → Except String Listener) (localPort target : String)
  | stopForward (localPort : String)
  | connectSSH (senv : SSHEnv) (henv : HandshakeEnv) (req : ConnectRequest)

/-- The effect of an operation; `none` is a panic. -/
def applyOp (st : State) : Op → Option State
  | .read n => some (addReceived n st)
  | .write n => some (addSent n st)
  | .disconnect traffic => some (Disconnect traffic st).1
  | .startForward listen localPort target => some (StartForward listen st localPort target).1
  | .stopForward localPort => some (StopForward st localPort).1
  | .connectSSH senv henv req => (ConnectSSH senv henv req st).map Prod.fst

/-- Whether an operation is `ConnectSSH`. -/
def Op.isConnectSSH : Op → Bool
  | .connectSSH _ _ _ => true
  | _ => false

/-- The octets an operation other than `ConnectSSH` writes on the counted
connection from the state `st`. -/
def Op.sent (st : State) : Op → Nat
  | .write n => n
  | .disconnect traffic => sentOn traffic (appended st (Disconnect traffic st).1)
  | _ => 0

/-- The octets an operation other than `ConnectSSH` reads on the counted
connection from the state `st`. -/
def Op.received (st : State) : Op → Nat
  | .read n => n
  | .disconnect traffic => receivedOn traffic (appended st (Disconnect traffic st).1)
  | _ => 0

end client

/-! ## The server: target validation, denial, byte accounting -/

namespace server

open protocol

theorem allowed_iff (ports : List PortConfig) (t : String) :
    allowed ports t = true ↔ ∃ p ∈ ports, p.Target = t := by
  induction ports with
  | nil => simp [allowed]
  | cons p ps ih =>
    by_cases h : p.Target = t
    · simp [allowed, h]
    · simp [allowed, h, ih]

theorem allowed_eq_false_iff (ports : List PortConfig) (t : String) :
    allowed ports t = false ↔ ∀ p ∈ ports, p.Target ≠ t := by
  rw [← Bool.not_eq_true, allowed_iff]
  simp

theorem wrapInt64_of_inRange (x : Int) (h1 : -9223372036854775808 ≤ x)
    (h2 : x ≤ 9223372036854775807) : wrapInt64 x = x := by
  unfold wrapInt64
  omega

theorem AddInt64_AddInt64 (v a b : Int) :
    AddInt64 (AddInt64 v a) b = wrapInt64 (v + a + b) := by
  unfold AddInt64 wrapInt64
  omega

theorem handleConnect_dialled (cfg : ServerConfig) (env : ConnEnv) (m : Metrics)
    (req : ConnectRequest) :
    dialled (handleConnect cfg env m req).2 = allowed cfg.AllowedPorts.elems req.Target := by
  unfold handleConnect
  cases hA : allowed cfg.AllowedPorts.elems req.Target
  · simp [dialled]
  · cases hD : env.dial req.Target with
    | some e => simp [dialled]
    | none =>
      cases hE : env.encodeOk { Success := true } <;> simp [hE, dialled]

/-- C1: `handleConnect` treats a requested target as allowed exactly when some
entry of the allow-list has that very string as its `Target`: the validation
loop answers true iff such an entry exists, the handler goes on to dial iff
such an entry exists, and a target that differs from every entry (in letter
case only, or as a proper part or extension of it) is never allowed. -/
theorem C1_allowed_iff_exact_target (cfg : ServerConfig) (env : ConnEnv) (m : Metrics)
    (t : String) :
    (allowed cfg.AllowedPorts.elems t = true ↔ ∃ p ∈ cfg.AllowedPorts.elems, p.Target = t)
    ∧ (dialled (handleConnect cfg env m { Target := t }).2 = true
        ↔ ∃ p ∈ cfg.AllowedPorts.elems, p.Target = t)
    ∧ ((∀ p ∈ cfg.AllowedPorts.elems, p.Target ≠ t) →
        allowed cfg.AllowedPorts.elems t = false
        ∧ dialled (handleConnect cfg env m { Target := t }).2 = false)
    ∧ ((∀ p ∈ cfg.AllowedPorts.elems, p.Target ≠ t ∧
          (p.Target.toLower = t.toLower ∨ t.data <:+: p.Target.data
            ∨ p.Target.data <:+: t.data)) →
        allowed cfg.AllowedPorts.elems t = false) := by
  refine ⟨allowed_iff _ _, ?_, ?_, ?_⟩
  · rw [handleConnect_dialled]
    exact allowed_iff _ _
  · intro h
    have hA := (allowed_eq_false_iff _ _).2 h
    refine ⟨hA, ?_⟩
    rw [handleConnect_dialled]
    exact hA
  · intro h
    exact (allowed_eq_false_iff _ _).2 (fun p hp => (h p hp).1)

/-- C2: on a connect request whose target is not in the allow-list,
`handleConnect` writes exactly one response, `Success = false` with the error
text `Target <t> not allowed` (which contains `not allowed` and the target),
adds one to `DeniedRequests` (as `atomic.AddInt64` does; exactly `+1` below the
largest `int64`), leaves every other counter, `ConnectErrors` and `TotalBytes`
among them, as it was, and makes no dial. -/
theorem C2_denied_target (cfg : ServerConfig) (env : ConnEnv) (m : Metrics)
    (req : ConnectRequest) (h : allowed cfg.AllowedPorts.elems req.Target = false) :
    (handleConnect cfg env m req).2
        = [Event.encode { Success := false, Error := "Target " ++ req.Target ++ " not allowed" }]
    ∧ "not allowed".data <:+: ("Target " ++ req.Target ++ " not allowed").data
    ∧ req.Target.data <:+: ("Target " ++ req.Target ++ " not allowed").data
    ∧ (handleConnect cfg env m req).1
        = { m with DeniedRequests := AddInt64 m.DeniedRequests 1 }
    ∧ (-9223372036854775808 ≤ m.DeniedRequests → m.DeniedRequests < maxInt64 →
        (handleConnect cfg env m req).1.DeniedRequests = m.DeniedRequests + 1)
    ∧ (handleConnect cfg env m req).1.ConnectErrors = m.ConnectErrors
    ∧ (handleConnect cfg env m req).1.TotalBytes = m.TotalBytes
    ∧ dialled (handleConnect cfg env m req).2 = false := by
  have hm : (handleConnect cfg env m req).1
      = { m with DeniedRequests := AddInt64 m.DeniedRequests 1 } := by
    simp [handleConnect, h]
  refine ⟨by simp [handleConnect, h], ?_, ?_, hm, ?_, by rw [hm], by rw [hm], ?_⟩
  · refine ⟨("Target " ++ req.Target ++ " ").data, [], ?_⟩
    simp [String.data_append]
  · refine ⟨"Target ".data, " not allowed".data, ?_⟩
    simp [String.data_append]
  · intro h1 h2
    rw [hm]
    show AddInt64 m.DeniedRequests 1 = m.DeniedRequests + 1
    unfold AddInt64
    unfold maxInt64 at h2
    exact wrapInt64_of_inRange _ (by omega) (by omega)
  · rw [handleConnect_dialled]
    exact h

/-- C2 at the allow-list `{"10.0.0.5:80"}` and the request `"10.0.0.5:81"`. -/
theorem C2_denied_target_witness :
    allowed (Slice.elems (some [⟨"web", "10.0.0.5:80", "", false, 0⟩])) "10.0.0.5:81" = false
    ∧ (handleConnect ⟨some [⟨"web", "10.0.0.5:80", "", false, 0⟩], 100, 0, 0, 0⟩
          ⟨fun _ => none, fun _ => true, 0, 0, true⟩ {} ⟨"10.0.0.5:81"⟩).1.DeniedRequests = 1
    ∧ dialled (handleConnect ⟨some [⟨"web", "10.0.0.5:80", "", false, 0⟩], 100, 0, 0, 0⟩
          ⟨fun _ => none, fun _ => true, 0, 0, true⟩ {} ⟨"10.0.0.5:81"⟩).2 = false :=
  have h := C2_denied_target ⟨some [⟨"web", "10.0.0.5:80", "", false, 0⟩], 100, 0, 0, 0⟩
    ⟨fun _ => none, fun _ => true, 0, 0, true⟩ {} ⟨"10.0.0.5:81"⟩ (by decide)
  ⟨by decide, h.2.2.2.2.1 (by decide) (by decide), h.2.2.2.2.2.2.2⟩

/-- C9: when the target is allowed and both the dial and the success response
succeed, `handleConnect` returns with `TotalBytes` advanced by the two
`atomic.AddInt64` calls of the copiers, which is `k + m` more than before (as
an `int64`; exactly `k + m` more while the sum stays an `int64`), whichever
copier finishes first; on the denied, dial-failure and response-write-failure
paths `TotalBytes` is as before. -/
theorem C9_total_bytes (cfg : ServerConfig) (env : ConnEnv) (m : Metrics)
    (req : ConnectRequest) :
    (allowed cfg.AllowedPorts.elems req.Target = true → env.dial req.Target = none →
      env.encodeOk { Success := true } = true →
        (handleConnect cfg env m req).1.TotalBytes
            = wrapInt64 (m.TotalBytes + env.up + env.down)
        ∧ (-9223372036854775808 ≤ m.TotalBytes →
            m.TotalBytes + env.up + env.down ≤ maxInt64 →
            (handleConnect cfg env m req).1.TotalBytes = m.TotalBytes + env.up + env.down))
    ∧ (allowed cfg.AllowedPorts.elems req.Target = false →
        (handleConnect cfg env m req).1.TotalBytes = m.TotalBytes)
    ∧ (∀ e, allowed cfg.AllowedPorts.elems req.Target = true →
        env.dial req.Target = some e →
        (handleConnect cfg env m req).1.TotalBytes = m.TotalBytes)
    ∧ (allowed cfg.AllowedPorts.elems req.Target = true → env.dial req.Target = none →
        env.encodeOk { Success := true } = false →
        (handleConnect cfg env m req).1.TotalBytes = m.TotalBytes) := by
  refine ⟨?_, ?_, ?_, ?_⟩
  · intro hA hD hE
    have key : (handleConnect cfg env m req).1.TotalBytes
        = wrapInt64 (m.TotalBytes + env.up + env.down) := by
      cases hU : env.upFirst
      · simp [handleConnect, hA, hD, hE, hU, copyUpstream, copyDownstream, AddInt64_AddInt64]
        congr 1
        ring
      · simp [handleConnect, hA, hD, hE, hU, copyUpstream, copyDownstream, AddInt64_AddInt64]
    refine ⟨key, ?_⟩
    intro h1 h2
    rw [key]
    unfold maxInt64 at h2
    exact wrapInt64_of_inRange _ (by omega) (by omega)
  · intro hA
    simp [handleConnect, hA]
  · intro e hA hD
    simp [handleConnect, hA, hD]
  · intro hA hD hE
    simp [handleConnect, hA, hD, hE]

end server

/-! ## The server: admission control in `Serve` -/

namespace server

theorem Inv_start (config : ServerConfig) (st0 : ServeState)
    (h : start config = some st0) : Inv config st0 := by
  unfold start NewServer at h
  by_cases hN : config.MaxStreams < 0
  · simp [hN] at h
  · simp [hN] at h
    subst h
    exact ⟨by omega, rfl, rfl, by simp⟩

theorem Inv_Serve (config : ServerConfig) (st : ServeState) (x : Nat)
    (h : Inv config st) : Inv config (Serve st x) := by
  obtain ⟨h0, h1, h2, h3⟩ := h
  unfold Serve trySend
  by_cases hlt : st.server.streamLimitLen < st.server.streamLimitCap
  · simp only [hlt, if_true]
    refine ⟨h0, h1, ?_, ?_⟩
    · simp [h2]
    · simp only [List.length_cons]
      omega
  · simp only [hlt, if_false]
    exact ⟨h0, h1, h2, h3⟩

theorem releaseStream_of_mem (config : ServerConfig) (st : ServeState) (x : Nat)
    (h : Inv config st) (hx : x ∈ st.handlers) :
    ∃ st2, releaseStream st x = some st2
      ∧ st2.handlers = st.handlers.erase x
      ∧ st2.handlers.length + 1 = st.handlers.length
      ∧ st2.server.streamLimitLen + 1 = st.server.streamLimitLen
      ∧ st2.server.streamLimitCap = st.server.streamLimitCap
      ∧ st2.metrics = { st.metrics with
          ActiveStreams := AddInt64 st.metrics.ActiveStreams (-1) }
      ∧ st2.trace = st.trace
      ∧ Inv config st2 := by
  obtain ⟨h0, h1, h2, h3⟩ := h
  have hpos : 0 < st.handlers.length := List.length_pos_of_mem hx
  have hlen : (st.handlers.erase x).length + 1 = st.handlers.length := by
    rw [List.length_erase_of_mem hx]
    omega
  have hrecv : 0 < st.server.streamLimitLen := by omega
  refine ⟨{ st with
      server := { st.server with streamLimitLen := st.server.streamLimitLen - 1 }
      handlers := st.handlers.erase x
      metrics := { st.metrics with
        ActiveStreams := AddInt64 st.metrics.ActiveStreams (-1) } },
    by simp [releaseStream, receive, hrecv], rfl, hlen, ?_, rfl, rfl, rfl, ?_⟩
  · show st.server.streamLimitLen - 1 + 1 = st.server.streamLimitLen
    omega
  · refine ⟨h0, h1, ?_, ?_⟩
    · show st.server.streamLimitLen - 1 = (st.handlers.erase x).length
      omega
    · show (st.handlers.erase x).length ≤ st.server.streamLimitCap
      omega

theorem Inv_step (config : ServerConfig) (st st2 : ServeState) (a : Step)
    (h : Inv config st) (hs : step st a = some st2) : Inv config st2 := by
  cases a with
  | accept x =>
    simp only [step, Option.some.injEq] at hs
    subst hs
    exact Inv_Serve config st x h
  | handlerReturns x =>
    by_cases hx : x ∈ st.handlers
    · obtain ⟨st3, h3, _, _, _, _, _, _, hI⟩ := releaseStream_of_mem config st x h hx
      simp only [step, hx, if_true, h3, Option.some.injEq] at hs
      subst hs
      exact hI
    · simp [step, hx] at hs

theorem Inv_run (config : ServerConfig) (steps : List Step) :
    ∀ st st2 : ServeState, Inv config st → run st steps = some st2 → Inv config st2 := by
  induction steps with
  | nil =>
    intro st st2 h hr
    simp only [run, Option.some.injEq] at hr
    subst hr
    exact h
  | cons a rest ih =>
    intro st st2 h hr
    cases hs : step st a with
    | none => simp [run, hs] at hr
    | some st3 =>
      simp only [run, hs] at hr
      exact ih st3 st2 (Inv_step config st st3 a h hs) hr

theorem Inv_of_Reachable (config : ServerConfig) (st : ServeState)
    (h : Reachable config st) : Inv config st := by
  obtain ⟨st0, steps, h0, hr⟩ := h
  exact Inv_run config steps st0 st (Inv_start config st0 h0) hr

theorem admitted_iff (st : ServeState) (x : Nat) :
    admitted st x = true ↔ st.server.streamLimitLen < st.server.streamLimitCap := by
  unfold admitted Serve trySend
  by_cases hlt : st.server.streamLimitLen < st.server.streamLimitCap
  · simp [hlt]
  · simp [hlt]

theorem Serve_rejects (st : ServeState) (x : Nat)
    (h : ¬ st.server.streamLimitLen < st.server.streamLimitCap) :
    Serve st x = { st with
      metrics := { st.metrics with DeniedRequests := AddInt64 st.metrics.DeniedRequests 1 }
      trace := st.trace ++ [ServeEvent.closeStream x] } := by
  simp [Serve, trySend, h]

theorem Serve_admits (st : ServeState) (x : Nat)
    (h : st.server.streamLimitLen < st.server.streamLimitCap) :
    Serve st x =
      { server := { st.server with streamLimitLen := st.server.streamLimitLen + 1 }
        handlers := x :: st.handlers
        metrics := { st.metrics with
          ActiveStreams := AddInt64 st.metrics.ActiveStreams 1
          TotalStreams := AddInt64 st.metrics.TotalStreams 1 }
        trace := st.trace ++ [ServeEvent.goHandleStream x] } := by
  simp [Serve, trySend, h]

end server

/-! ## The client: the listener registry -/

namespace client

theorem mem_mapDelete (k : String) (m : List (String × Listener)) (e : String × Listener) :
    e ∈ mapDelete k m ↔ e ∈ m ∧ e.1 ≠ k := by
  induction m with
  | nil => simp [mapDelete]
  | cons hd tl ih =>
    obtain ⟨k2, ln⟩ := hd
    by_cases h : k2 = k
    · simp only [mapDelete, h, if_true, ih, List.mem_cons]
      constructor
      · rintro ⟨h1, h2⟩
        exact ⟨Or.inr h1, h2⟩
      · rintro ⟨h1 | h1, h2⟩
        · exact absurd (by rw [h1]) h2
        · exact ⟨h1, h2⟩
    · simp only [mapDelete, h, if_false, List.mem_cons, ih]
      constructor
      · rintro (h1 | ⟨h1, h2⟩)
        · exact ⟨Or.inl h1, by rw [h1]; exact h⟩
        · exact ⟨Or.inr h1, h2⟩
      · rintro ⟨h1 | h1, h2⟩
        · exact Or.inl h1
        · exact Or.inr ⟨h1, h2⟩

theorem mapLookup_mapDelete_self (k : String) (m : List (String × Listener)) :
    mapLookup k (mapDelete k m) = none := by
  induction m with
  | nil => rfl
  | cons hd tl ih =>
    obtain ⟨k2, ln⟩ := hd
    by_cases h : k2 = k
    · simp [mapDelete, h, ih]
    · simp [mapDelete, mapLookup, h, ih]

theorem mapLookup_mapDelete_ne (k b : String) (m : List (String × Listener)) (h : b ≠ k) :
    mapLookup b (mapDelete k m) = mapLookup b m := by
  induction m with
  | nil => rfl
  | cons hd tl ih =>
    obtain ⟨k2, ln⟩ := hd
    by_cases h2 : k2 = k
    · subst h2
      have h3 : ¬ k2 = b := fun hh => h hh.symm
      simp [mapDelete, mapLookup, h3, ih]
    · by_cases h3 : k2 = b
      · subst h3
        simp [mapDelete, mapLookup, h]
      · simp [mapDelete, mapLookup, h2, h3, ih]

theorem mapLookup_mapStore_self (k : String) (ln : Listener) (m : List (String × Listener)) :
    mapLookup k (mapStore k ln m) = some ln := by
  induction m with
  | nil => simp [mapStore, mapLookup]
  | cons hd tl ih =>
    obtain ⟨k2, ln2⟩ := hd
    by_cases h : k2 = k
    · simp [mapStore, mapLookup, h]
    · simp [mapStore, mapLookup, h, ih]

theorem mapLookup_mapStore_isSome (k b : String) (ln : Listener)
    (m : List (String × Listener)) (h : (mapLookup b m).isSome = true) :
    (mapLookup b (mapStore k ln m)).isSome = true := by
  by_cases hkb : b = k
  · rw [hkb, mapLookup_mapStore_self]
    rfl
  · induction m with
    | nil => simp [mapLookup] at h
    | cons hd tl ih =>
      obtain ⟨k2, ln2⟩ := hd
      by_cases h2 : k2 = k
      · subst h2
        have h3 : ¬ k2 = b := fun hh => hkb hh.symm
        simp only [mapLookup, h3, if_false] at h
        simp [mapStore, mapLookup, h3, h]
      · by_cases h3 : k2 = b
        · subst h3
          simp [mapStore, mapLookup, hkb]
        · simp only [mapLookup, h3, if_false] at h
          simp [mapStore, mapLookup, h2, h3, ih h]

theorem mapLookup_eq_none_iff (k : String) (m : List (String × Listener)) :
    mapLookup k m = none ↔ ∀ e ∈ m, e.1 ≠ k := by
  induction m with
  | nil => simp [mapLookup]
  | cons hd tl ih =>
    obtain ⟨k2, ln⟩ := hd
    by_cases h : k2 = k
    · simp [mapLookup, h]
    · simp [mapLookup, h, ih]

theorem mem_of_mapLookup (k : String) (ln : Listener) (m : List (String × Listener))
    (h : mapLookup k m = some ln) : (k, ln) ∈ m := by
  induction m with
  | nil => simp [mapLookup] at h
  | cons hd tl ih =>
    obtain ⟨k2, ln2⟩ := hd
    by_cases h2 : k2 = k
    · subst h2
      simp only [mapLookup, if_true, Option.some.injEq] at h
      subst h
      exact List.mem_cons_self _ _
    · simp only [mapLookup, h2, if_false] at h
      exact List.mem_cons_of_mem _ (ih h)

theorem mapLookup_of_mem (k : String) (ln : Listener) (m : List (String × Listener))
    (hk : (m.map Prod.fst).Nodup) (h : (k, ln) ∈ m) : mapLookup k m = some ln := by
  induction m with
  | nil => simp at h
  | cons hd tl ih =>
    obtain ⟨k2, ln2⟩ := hd
    simp only [List.map_cons, List.nodup_cons, List.mem_map, not_exists, not_and] at hk
    obtain ⟨hk1, hk2⟩ := hk
    simp only [List.mem_cons, Prod.mk.injEq] at h
    rcases h with ⟨h1, h2⟩ | h
    · subst h1 h2
      simp [mapLookup]
    · have hne : ¬ k2 = k := fun hh => hk1 (k, ln) h hh.symm
      simp only [mapLookup, hne, if_false]
      exact ih hk2 h

theorem mapDelete_eq_filter (k : String) (m : List (String × Listener)) :
    mapDelete k m = m.filter (fun e => decide (e.1 ≠ k)) := by
  induction m with
  | nil => rfl
  | cons hd tl ih =>
    obtain ⟨k2, ln⟩ := hd
    by_cases h : k2 = k
    · simp [mapDelete, h, ih]
    · simp [mapDelete, h, ih]

/-- C7: on the registry as a list of entries `(address, listener)`:
`StopForward(a)` returns false exactly when no entry has the address `a`, and
then leaves the whole state (registry and trace of outside calls) as it was;
when `(a, ln)` is an entry it returns true, makes exactly one outside call,
the `Close` of a listener registered under `a` (of `ln` itself when the
addresses of the registry are distinct, as the keys of a map are), leaves the
registry with the entries of `a` filtered out and every other entry as it
was and in place, and a `StopForward(a)` right after returns false and
changes nothing. -/
theorem C7_StopForward (st : State) (a : String) :
    ((StopForward st a).2 = false ↔ ∀ e ∈ st.listeners, e.1 ≠ a)
    ∧ ((StopForward st a).2 = true ↔ ∃ ln, (a, ln) ∈ st.listeners)
    ∧ ((∀ e ∈ st.listeners, e.1 ≠ a) → StopForward st a = (st, false))
    ∧ (∀ ln, (a, ln) ∈ st.listeners →
        (StopForward st a).2 = true
        ∧ (∃ ln2, (a, ln2) ∈ st.listeners
            ∧ ((st.listeners.map Prod.fst).Nodup → ln2 = ln)
            ∧ (StopForward st a).1 =
                { st with
                  trace := st.trace ++ [Event.closeListener ln2.id]
                  listeners := st.listeners.filter (fun e => decide (e.1 ≠ a)) })
        ∧ (∀ e, e ∈ (StopForward st a).1.listeners ↔ e ∈ st.listeners ∧ e.1 ≠ a)
        ∧ (∀ b, b ≠ a →
            mapLookup b (StopForward st a).1.listeners = mapLookup b st.listeners)
        ∧ StopForward (StopForward st a).1 a = ((StopForward st a).1, false)) := by
  have hnone : (∀ e ∈ st.listeners, e.1 ≠ a) → StopForward st a = (st, false) := by
    intro h
    simp [StopForward, (mapLookup_eq_none_iff a st.listeners).2 h]
  have hsome : ∀ ln2, mapLookup a st.listeners = some ln2 →
      StopForward st a =
        ({ st with
            trace := st.trace ++ [Event.closeListener ln2.id]
            listeners := st.listeners.filter (fun e => decide (e.1 ≠ a)) }, true) := by
    intro ln2 h
    simp [StopForward, h, mapDelete_eq_filter]
  have hex : ∀ ln, (a, ln) ∈ st.listeners → ∃ ln2, mapLookup a st.listeners = some ln2 := by
    intro ln hmem
    cases hl : mapLookup a st.listeners with
    | none => exact absurd rfl ((mapLookup_eq_none_iff a st.listeners).1 hl (a, ln) hmem)
    | some ln2 => exact ⟨ln2, rfl⟩
  have htrue : (StopForward st a).2 = true ↔ ∃ ln, (a, ln) ∈ st.listeners := by
    constructor
    · intro h
      cases hl : mapLookup a st.listeners with
      | none => simp [StopForward, hl] at h
      | some ln2 => exact ⟨ln2, mem_of_mapLookup a ln2 st.listeners hl⟩
    · rintro ⟨ln, hmem⟩
      obtain ⟨ln2, hl⟩ := hex ln hmem
      rw [hsome ln2 hl]
  refine ⟨?_, htrue, hnone, ?_⟩
  · constructor
    · intro h e he hea
      have : (StopForward st a).2 = true := htrue.2 ⟨e.2, by rw [← hea]; exact he⟩
      rw [h] at this
      exact absurd this (by decide)
    · intro h
      rw [hnone h]
  · intro ln hmem
    obtain ⟨ln2, hl⟩ := hex ln hmem
    have hS := hsome ln2 hl
    refine ⟨htrue.2 ⟨ln, hmem⟩, ⟨ln2, mem_of_mapLookup a ln2 st.listeners hl, ?_, ?_⟩, ?_, ?_, ?_⟩
    · intro hk
      have := mapLookup_of_mem a ln st.listeners hk hmem
      rw [hl] at this
      exact Option.some.inj this
    · rw [hS]
    · intro e
      rw [hS]
      simp only [List.mem_filter, decide_eq_true_eq]
    · intro b hb
      rw [hS, ← mapDelete_eq_filter]
      exact mapLookup_mapDelete_ne a b st.listeners hb
    · rw [hS]
      apply Prod.ext
      · simp only [StopForward, ← mapDelete_eq_filter, mapLookup_mapDelete_self]
      · simp only [StopForward, ← mapDelete_eq_filter, mapLookup_mapDelete_self]

/-- C7 at a registry of two listeners: stopping `127.0.0.1:8080` closes
listener 1 and leaves the entry of `127.0.0.1:9090`; stopping an address that
is not registered changes nothing. -/
theorem C7_StopForward_witness :
    StopForward
        { NewApp with listeners := [("127.0.0.1:8080", ⟨1, "127.0.0.1:8080"⟩),
                                    ("127.0.0.1:9090", ⟨2, "127.0.0.1:9090"⟩)] }
        "127.0.0.1:8080"
      = ({ NewApp with
            listeners := [("127.0.0.1:9090", ⟨2, "127.0.0.1:9090"⟩)]
            trace := [Event.closeListener 1] }, true)
    ∧ StopForward
        { NewApp with listeners := [("127.0.0.1:8080", ⟨1, "127.0.0.1:8080"⟩),
                                    ("127.0.0.1:9090", ⟨2, "127.0.0.1:9090"⟩)] }
        "127.0.0.1:7070"
      = ({ NewApp with listeners := [("127.0.0.1:8080", ⟨1, "127.0.0.1:8080"⟩),
                                     ("127.0.0.1:9090", ⟨2, "127.0.0.1:9090"⟩)] }, false) :=
  have h := C7_StopForward
    { NewApp with listeners := [("127.0.0.1:8080", ⟨1, "127.0.0.1:8080"⟩),
                                ("127.0.0.1:9090", ⟨2, "127.0.0.1:9090"⟩)] }
    "127.0.0.1:8080"
  have h2 := C7_StopForward
    { NewApp with listeners := [("127.0.0.1:8080", ⟨1, "127.0.0.1:8080"⟩),
                                ("127.0.0.1:9090", ⟨2, "127.0.0.1:9090"⟩)] }
    "127.0.0.1:7070"
  ⟨by
    obtain ⟨ln2, _, hu, hs⟩ := (h.2.2.2 ⟨1, "127.0.0.1:8080"⟩ (by decide)).2.1
    have hln : ln2 = ⟨1, "127.0.0.1:8080"⟩ := hu (by decide)
    subst hln
    apply Prod.ext
    · rw [hs]
      decide
    · exact (h.2.2.2 ⟨1, "127.0.0.1:8080"⟩ (by decide)).1,
   h2.2.2.1 (by decide)⟩

theorem closeListeners_spec (visit : List (String × Listener)) :
    ∀ st : State,
      (closeListeners visit st).listeners
          = visit.foldl (fun m e => mapDelete e.1 m) st.listeners
      ∧ (closeListeners visit st).trace
          = st.trace ++ visit.map (fun e => Event.closeListener e.2.id)
      ∧ (closeListeners visit st).sshClient = st.sshClient
      ∧ (closeListeners visit st).yamuxSession = st.yamuxSession
      ∧ (closeListeners visit st).BytesSent = st.BytesSent
      ∧ (closeListeners visit st).BytesReceived = st.BytesReceived := by
  induction visit with
  | nil =>
    intro st
    simp [closeListeners]
  | cons hd tl ih =>
    intro st
    obtain ⟨port, ln⟩ := hd
    obtain ⟨h1, h2, h3, h4, h5, h6⟩ := ih
      { st with
        trace := st.trace ++ [Event.closeListener ln.id]
        listeners := mapDelete port st.listeners }
    simp only [closeListeners]
    refine ⟨?_, ?_, h3, h4, h5, h6⟩
    · rw [h1]
      rfl
    · rw [h2]
      simp

theorem foldl_mapDelete_eq_nil (visit : List (String × Listener)) :
    ∀ m : List (String × Listener), (∀ e ∈ m, e.1 ∈ visit.map Prod.fst) →
      visit.foldl (fun m e => mapDelete e.1 m) m = [] := by
  induction visit with
  | nil =>
    intro m h
    cases m with
    | nil => rfl
    | cons e tl =>
      have := h e (List.mem_cons_self _ _)
      simp at this
  | cons hd tl ih =>
    intro m h
    simp only [List.foldl_cons]
    apply ih
    intro e he
    rw [mem_mapDelete] at he
    have := h e he.1
    simp only [List.map_cons, List.mem_cons] at this
    rcases this with h1 | h1
    · exact absurd h1 he.2
    · exact h1

@[simp] theorem outside_sshClient (t : Event → Nat × Nat) (ev : Event) (st : State) :
    (outside t ev st).sshClient = st.sshClient := by
  unfold outside
  split <;> rfl

@[simp] theorem outside_yamuxSession (t : Event → Nat × Nat) (ev : Event) (st : State) :
    (outside t ev st).yamuxSession = st.yamuxSession := by
  unfold outside
  split <;> rfl

@[simp] theorem outside_listeners (t : Event → Nat × Nat) (ev : Event) (st : State) :
    (outside t ev st).listeners = st.listeners := by
  unfold outside
  split <;> rfl

@[simp] theorem outside_trace (t : Event → Nat × Nat) (ev : Event) (st : State) :
    (outside t ev st).trace = st.trace ++ [ev] := by
  unfold outside
  split <;> rfl

theorem outside_counters (t : Event → Nat × Nat) (ev : Event) (st : State) :
    ((outside t ev st).BytesSent, (outside t ev st).BytesReceived)
      = tally t [ev] (st.BytesSent, st.BytesReceived) := by
  unfold outside tally
  split <;> rfl

theorem tally_append (t : Event → Nat × Nat) (xs ys : List Event) :
    ∀ c : Nat × Nat, tally t (xs ++ ys) c = tally t ys (tally t xs c) := by
  induction xs with
  | nil =>
    intro c
    rfl
  | cons x rest ih =>
    intro c
    exact ih _

theorem tally_not_over (t : Event → Nat × Nat) (evs : List Event)
    (h : ∀ ev ∈ evs, overConnection ev = false) (c : Nat × Nat) : tally t evs c = c := by
  induction evs with
  | nil => rfl
  | cons x rest ih =>
    have hx := h x (List.mem_cons_self _ _)
    simp only [tally, hx, Bool.false_eq_true, if_false]
    exact ih (fun ev hev => h ev (List.mem_cons_of_mem _ hev))

theorem Extends_refl (t : Event → Nat × Nat) (st : State) : Extends t st st :=
  ⟨[], by simp, rfl⟩

theorem Extends_trans (t : Event → Nat × Nat) (a b c : State) (h1 : Extends t a b)
    (h2 : Extends t b c) : Extends t a c := by
  obtain ⟨e1, t1, c1⟩ := h1
  obtain ⟨e2, t2, c2⟩ := h2
  refine ⟨e1 ++ e2, ?_, ?_⟩
  · rw [t2, t1, List.append_assoc]
  · rw [c2, c1, tally_append]

theorem Extends_outside (t : Event → Nat × Nat) (ev : Event) (st : State) :
    Extends t st (outside t ev st) :=
  ⟨[ev], outside_trace t ev st, outside_counters t ev st⟩

theorem Extends_same (t : Event → Nat × Nat) (a b c : State) (h : Extends t a b)
    (ht : c.trace = b.trace) (hs : c.BytesSent = b.BytesSent)
    (hr : c.BytesReceived = b.BytesReceived) : Extends t a c := by
  obtain ⟨e, t1, c1⟩ := h
  exact ⟨e, by rw [ht, t1], by rw [hs, hr, c1]⟩

theorem Extends_closeListeners (t : Event → Nat × Nat) (st : State) :
    Extends t st (closeListeners st.listeners st) := by
  obtain ⟨_, h2, _, _, h5, h6⟩ := closeListeners_spec st.listeners st
  refine ⟨st.listeners.map (fun e => Event.closeListener e.2.id), h2, ?_⟩
  rw [h5, h6, tally_not_over]
  intro ev hev
  simp only [List.mem_map] at hev
  obtain ⟨e, _, he⟩ := hev
  subst he
  rfl

theorem Extends_closeYamux (t : Event → Nat × Nat) (st : State) :
    Extends t st (closeYamux t st) := by
  unfold closeYamux
  cases st.yamuxSession with
  | none => exact Extends_refl t st
  | some y => exact Extends_same t _ _ _ (Extends_outside t (Event.closeSession y) st) rfl rfl rfl

theorem Extends_closeSSH (t : Event → Nat × Nat) (st : State) :
    Extends t st (closeSSH t st) := by
  unfold closeSSH
  cases st.sshClient with
  | none => exact Extends_refl t st
  | some c => exact Extends_same t _ _ _ (Extends_outside t (Event.closeClient c) st) rfl rfl rfl

theorem Extends_mem (t : Event → Nat × Nat) (a b : State) (h : Extends t a b) :
    ∀ ev ∈ a.trace, ev ∈ b.trace := by
  obtain ⟨e, t1, _⟩ := h
  intro ev hev
  rw [t1]
  exact List.mem_append_left _ hev

theorem Extends_appended (t : Event → Nat × Nat) (a b : State) (h : Extends t a b) :
    b.trace = a.trace ++ appended a b
    ∧ (b.BytesSent, b.BytesReceived) = tally t (appended a b) (a.BytesSent, a.BytesReceived) := by
  obtain ⟨e, t1, c1⟩ := h
  have : appended a b = e := by
    unfold appended
    rw [t1, List.drop_left]
  rw [this]
  exact ⟨t1, c1⟩

theorem closeYamux_spec (t : Event → Nat × Nat) (st : State) :
    (closeYamux t st).yamuxSession = none
    ∧ (closeYamux t st).sshClient = st.sshClient
    ∧ (closeYamux t st).listeners = st.listeners
    ∧ (∀ y, st.yamuxSession = some y → Event.closeSession y ∈ (closeYamux t st).trace) := by
  unfold closeYamux
  cases hy : st.yamuxSession with
  | none => simp [hy]
  | some y => simp

theorem closeSSH_spec (t : Event → Nat × Nat) (st : State) :
    (closeSSH t st).sshClient = none
    ∧ (closeSSH t st).yamuxSession = st.yamuxSession
    ∧ (closeSSH t st).listeners = st.listeners
    ∧ (∀ c, st.sshClient = some c → Event.closeClient c ∈ (closeSSH t st).trace) := by
  unfold closeSSH
  cases hc : st.sshClient with
  | none => simp [hc]
  | some c => simp

theorem disconnectLocked_spec (t : Event → Nat × Nat) (st : State) :
    (disconnectLocked t st).listeners = []
    ∧ (disconnectLocked t st).yamuxSession = none
    ∧ (disconnectLocked t st).sshClient = none
    ∧ Extends t st (disconnectLocked t st)
    ∧ (∀ e ∈ st.listeners, Event.closeListener e.2.id ∈ (disconnectLocked t st).trace)
    ∧ (∀ y, st.yamuxSession = some y → Event.closeSession y ∈ (disconnectLocked t st).trace)
    ∧ (∀ c, st.sshClient = some c → Event.closeClient c ∈ (disconnectLocked t st).trace) := by
  obtain ⟨h1, h2, h3, h4, _, _⟩ := closeListeners_spec st.listeners st
  have hnil : (closeListeners st.listeners st).listeners = [] := by
    rw [h1]
    apply foldl_mapDelete_eq_nil
    intro e he
    exact List.mem_map_of_mem Prod.fst he
  obtain ⟨y1, y2, y3, y4⟩ := closeYamux_spec t (closeListeners st.listeners st)
  obtain ⟨s1, s2, s3, s4⟩ := closeSSH_spec t (closeYamux t (closeListeners st.listeners st))
  have e1 := Extends_closeListeners t st
  have e2 := Extends_closeYamux t (closeListeners st.listeners st)
  have e3 := Extends_closeSSH t (closeYamux t (closeListeners st.listeners st))
  refine ⟨?_, ?_, s1, Extends_trans t _ _ _ (Extends_trans t _ _ _ e1 e2) e3, ?_, ?_, ?_⟩
  · show (closeSSH t (closeYamux t (closeListeners st.listeners st))).listeners = []
    rw [s3, y3, hnil]
  · show (closeSSH t (closeYamux t (closeListeners st.listeners st))).yamuxSession = none
    rw [s2, y1]
  · intro e he
    apply Extends_mem t _ _ (Extends_trans t _ _ _ e2 e3)
    rw [h2]
    exact List.mem_append_right _ (List.mem_map_of_mem _ he)
  · intro y hy
    apply Extends_mem t _ _ e3
    exact y4 y (by rw [h4, hy])
  · intro c hc
    exact s4 c (by rw [y2, h3, hc])

theorem disconnectLocked_of_clean (t : Event → Nat × Nat) (st : State)
    (h1 : st.listeners = []) (h2 : st.yamuxSession = none) (h3 : st.sshClient = none) :
    disconnectLocked t st = st := by
  unfold disconnectLocked
  rw [h1]
  simp [closeListeners, closeYamux, closeSSH, h2, h3]

/-- C8: from every client state, and whatever octets its closes put on the
counted connection, `Disconnect()` returns true (it has no failing path) and
leaves an empty listener registry, no session handle and no transport
handle, having closed every listener that was registered, then the session
and the transport if present; a second `Disconnect()` returns true again and
leaves that state exactly as it is, making no further outside call. -/
theorem C8_Disconnect_idempotent (traffic traffic2 : Event → Nat × Nat) (st : State) :
    (Disconnect traffic st).2 = true
    ∧ (Disconnect traffic st).1.listeners = []
    ∧ (Disconnect traffic st).1.yamuxSession = none
    ∧ (Disconnect traffic st).1.sshClient = none
    ∧ (∀ e ∈ st.listeners, Event.closeListener e.2.id ∈ (Disconnect traffic st).1.trace)
    ∧ (∀ y, st.yamuxSession = some y →
        Event.closeSession y ∈ (Disconnect traffic st).1.trace)
    ∧ (∀ c, st.sshClient = some c → Event.closeClient c ∈ (Disconnect traffic st).1.trace)
    ∧ Disconnect traffic2 (Disconnect traffic st).1 = ((Disconnect traffic st).1, true)
    ∧ Disconnect traffic NewApp = (NewApp, true) := by
  obtain ⟨h1, h2, h3, _, h5, h6, h7⟩ := disconnectLocked_spec traffic st
  refine ⟨rfl, h1, h2, h3, h5, h6, h7, ?_, ?_⟩
  · show (disconnectLocked traffic2 (disconnectLocked traffic st), true)
        = (disconnectLocked traffic st, true)
    rw [disconnectLocked_of_clean _ _ h1 h2 h3]
  · rfl

end client

/-! ## The client: `StartForward` on a tracked address -/

namespace client

theorem StartForward_keeps_key (listen : String → Except String Listener) (st : State)
    (localPort target b : String) (h : (mapLookup b st.listeners).isSome = true) :
    (mapLookup b (StartForward listen st localPort target).1.listeners).isSome = true := by
  unfold StartForward
  split
  · exact h
  · cases hl : listen localPort with
    | error e => exact h
    | ok ln => exact mapLookup_mapStore_isSome ln.addr b ln st.listeners h

theorem startForwards_keeps_key
    (calls : List ((String → Except String Listener) × String × String)) (b : String) :
    ∀ st : State, (mapLookup b st.listeners).isSome = true →
      (mapLookup b (startForwards calls st).listeners).isSome = true := by
  induction calls with
  | nil =>
    intro st h
    exact h
  | cons c rest ih =>
    intro st h
    obtain ⟨listen, localPort, target⟩ := c
    exact ih _ (StartForward_keeps_key listen st localPort target b h)

theorem StartForward_ok_registers (listen : String → Except String Listener) (st : State)
    (localPort target bound : String)
    (h : (StartForward listen st localPort target).2 = (bound, none)) :
    (mapLookup bound (StartForward listen st localPort target).1.listeners).isSome = true := by
  unfold StartForward at h ⊢
  split at h
  · simp at h
  · rename_i hc
    simp only [hc, if_false]
    cases hl : listen localPort with
    | error e => simp [hl] at h
    | ok ln =>
      simp only [hl, Prod.mk.injEq, and_true] at h
      simp only [hl]
      rw [← h, mapLookup_mapStore_self]
      rfl

theorem StartForward_tracked (listen : String → Except String Listener) (st : State)
    (a target : String) (h1 : a ≠ ":0") (h2 : a ≠ "0")
    (h : (mapLookup a st.listeners).isSome = true) :
    StartForward listen st a target = (st, "", some errPortInUse) := by
  simp [StartForward, h1, h2, h]

/-- C6, as the code has it: `StartForward` registers the address the listener
is bound to, not the address asked for. After `StartForward("localhost:8080", t)`
has succeeded with the bound address `127.0.0.1:8080`, a second
`StartForward("localhost:8080", t)` finds no entry under `localhost:8080`,
calls `net.Listen` and returns the operating system's bind failure, not the
`already in use` error. -/
theorem C6_counterexample_unnormalised_address :
    (StartForward (fun _ => .ok ⟨1, "127.0.0.1:8080"⟩) NewApp
        "localhost:8080" "10.0.0.5:80").2 = ("127.0.0.1:8080", none)
    ∧ StartForward (fun _ => .error "listen tcp 127.0.0.1:8080: bind: address already in use")
        (StartForward (fun _ => .ok ⟨1, "127.0.0.1:8080"⟩) NewApp
          "localhost:8080" "10.0.0.5:80").1
        "localhost:8080" "10.0.0.5:80"
      = ({ (StartForward (fun _ => .ok ⟨1, "127.0.0.1:8080"⟩) NewApp
              "localhost:8080" "10.0.0.5:80").1 with
            trace := [Event.listen "localhost:8080", Event.goAccept 1 "10.0.0.5:80",
                      Event.listen "localhost:8080"] },
          "",
          some "Failed to listen: listen tcp 127.0.0.1:8080: bind: address already in use")
    ∧ "Failed to listen: listen tcp 127.0.0.1:8080: bind: address already in use"
        ≠ errPortInUse := by
  decide

/-- C6, amended: for every address `a` other than `":0"` and `"0"`, if
`StartForward(a, t)` has succeeded and returned `a` itself as the bound
address, then after any further `StartForward` calls (and no `StopForward`,
`Disconnect` or `ConnectSSH`) a second `StartForward(a, t')` returns the
`already in use` error with an empty bound address and leaves the whole state
as it was: the registry is unchanged and no `net.Listen` is recorded. -/
theorem C6_second_StartForward_same_address
    (listen1 listen2 : String → Except String Listener) (st : State) (a t t' : String)
    (between : List ((String → Except String Listener) × String × String))
    (h1 : a ≠ ":0") (h2 : a ≠ "0")
    (hok : (StartForward listen1 st a t).2 = (a, none)) :
    StartForward listen2 (startForwards between (StartForward listen1 st a t).1) a t'
      = (startForwards between (StartForward listen1 st a t).1, "", some errPortInUse) := by
  apply StartForward_tracked listen2 _ a t' h1 h2
  apply startForwards_keeps_key
  exact StartForward_ok_registers listen1 st a t a hok

/-- C6 amended, at `a = "127.0.0.1:8080"` bound as asked, with one unrelated
`StartForward` in between. -/
theorem C6_second_StartForward_same_address_witness :
    StartForward (fun _ => .ok ⟨3, "127.0.0.1:8080"⟩)
        (startForwards [(fun _ => .ok ⟨2, "127.0.0.1:9090"⟩, "127.0.0.1:9090", "10.0.0.5:443")]
          (StartForward (fun _ => .ok ⟨1, "127.0.0.1:8080"⟩) NewApp
            "127.0.0.1:8080" "10.0.0.5:80").1)
        "127.0.0.1:8080" "10.0.0.5:81"
      = (startForwards [(fun _ => .ok ⟨2, "127.0.0.1:9090"⟩, "127.0.0.1:9090", "10.0.0.5:443")]
          (StartForward (fun _ => .ok ⟨1, "127.0.0.1:8080"⟩) NewApp
            "127.0.0.1:8080" "10.0.0.5:80").1, "", some errPortInUse) :=
  C6_second_StartForward_same_address (fun _ => .ok ⟨1, "127.0.0.1:8080"⟩)
    (fun _ => .ok ⟨3, "127.0.0.1:8080"⟩) NewApp "127.0.0.1:8080" "10.0.0.5:80" "10.0.0.5:81"
    [(fun _ => .ok ⟨2, "127.0.0.1:9090"⟩, "127.0.0.1:9090", "10.0.0.5:443")]
    (by decide) (by decide) (by decide)

end client

/-! ## The client: `ConnectSSH` -/

namespace client

open protocol

theorem resetForConnect_spec (t : Event → Nat × Nat) (st : State) :
    (resetForConnect t st).listeners = []
    ∧ (resetForConnect t st).yamuxSession = none
    ∧ (resetForConnect t st).sshClient = none
    ∧ (resetForConnect t st).BytesSent = 0
    ∧ (resetForConnect t st).BytesReceived = 0
    ∧ (resetForConnect t st).trace = (disconnectLocked t st).trace := by
  obtain ⟨h1, h2, h3, _⟩ := disconnectLocked_spec t st
  exact ⟨h1, h2, h3, rfl, rfl, rfl⟩

theorem connectSSH_ok (env : SSHEnv) (req : ConnectRequest) (st st3 : State)
    (h : connectSSH env req st = (st3, none)) :
    ∃ c y, st3.sshClient = some c ∧ st3.yamuxSession = some y
      ∧ st3.listeners = st.listeners := by
  unfold connectSSH at h
  cases h1 : env.dialTimeout req.Host with
  | error e => simp [h1] at h
  | ok conn =>
    simp only [h1] at h
    cases h2 : env.newClientConn conn req.Host req.User (passwordAuths req) with
    | error e => simp [h2] at h
    | ok c =>
      simp only [h2] at h
      cases h3 : env.newSession c with
      | error e => simp [h3] at h
      | ok session =>
        simp only [h3] at h
        cases h4 : env.startAgent session (agentCommand req) with
        | some e => simp [h4] at h
        | none =>
          simp only [h4] at h
          cases h5 : env.yamuxClient session with
          | error e => simp [h5] at h
          | ok ysess =>
            simp only [h5, Prod.mk.injEq, and_true] at h
            subst h
            exact ⟨c, ysess, by simp, rfl, by simp⟩

theorem connectSSH_Extends (env : SSHEnv) (req : ConnectRequest) (st : State) :
    Extends env.traffic st (connectSSH env req st).1 := by
  have e1 := Extends_outside env.traffic (Event.dialTimeout req.Host) st
  cases h1 : env.dialTimeout req.Host with
  | error e =>
    simp only [connectSSH, h1]
    exact e1
  | ok conn =>
    have e2 := Extends_trans _ _ _ _ e1 (Extends_outside env.traffic
      (Event.newClientConn conn req.Host req.User (passwordAuths req))
      (outside env.traffic (Event.dialTimeout req.Host) st))
    cases h2 : env.newClientConn conn req.Host req.User (passwordAuths req) with
    | error e =>
      simp only [connectSSH, h1, h2]
      exact Extends_trans _ _ _ _ e2 (Extends_outside _ _ _)
    | ok c =>
      have e3 := Extends_trans _ _ _ _
        (Extends_same env.traffic _ _
          { outside env.traffic (Event.newClientConn conn req.Host req.User (passwordAuths req))
              (outside env.traffic (Event.dialTimeout req.Host) st) with sshClient := some c }
          e2 rfl rfl rfl)
        (Extends_outside env.traffic (Event.newSession c) _)
      cases h3 : env.newSession c with
      | error e =>
        simp only [connectSSH, h1, h2, h3]
        exact e3
      | ok session =>
        have e4 := Extends_trans _ _ _ _ e3
          (Extends_outside env.traffic (Event.startAgent session (agentCommand req)) _)
        cases h4 : env.startAgent session (agentCommand req) with
        | some e =>
          simp only [connectSSH, h1, h2, h3, h4]
          exact e4
        | none =>
          have e5 := Extends_trans _ _ _ _ e4
            (Extends_outside env.traffic (Event.yamuxClient session) _)
          cases h5 : env.yamuxClient session with
          | error e =>
            simp only [connectSSH, h1, h2, h3, h4, h5]
            exact e5
          | ok ysess =>
            simp only [connectSSH, h1, h2, h3, h4, h5]
            exact Extends_same _ _ _ _ e5 rfl rfl rfl

theorem performHandshake_spec (t : Event → Nat × Nat) (env : HandshakeEnv) (st st2 : State)
    (r : Except String protocol.HandshakeResponse)
    (h : performHandshake t env st = some (st2, r)) :
    Extends t st st2 ∧ st2.sshClient = st.sshClient ∧ st2.yamuxSession = st.yamuxSession
      ∧ st2.listeners = st.listeners := by
  unfold performHandshake at h
  cases hy : st.yamuxSession with
  | none => simp [hy] at h
  | some y =>
    simp only [hy] at h
    have e1 := Extends_outside t (Event.openStream y) st
    cases ho : env.openStream y with
    | error e =>
      simp only [ho, Option.some.injEq, Prod.mk.injEq] at h
      obtain ⟨h, _⟩ := h
      subst h
      exact ⟨e1, by simp, by simp [hy], by simp⟩
    | ok stream =>
      simp only [ho] at h
      have e2 := Extends_trans _ _ _ _ e1
        (Extends_outside t (Event.encodeMessage stream handshakeMessage.Type_) _)
      cases he : env.encode stream with
      | some e =>
        simp only [he, Option.some.injEq, Prod.mk.injEq] at h
        obtain ⟨h, _⟩ := h
        subst h
        exact ⟨Extends_trans _ _ _ _ e2 (Extends_outside t _ _), by simp, by simp [hy],
          by simp⟩
      | none =>
        simp only [he] at h
        have e4 := Extends_trans _ _ _ _
          (Extends_trans _ _ _ _ e2 (Extends_outside t (Event.decodeResponse stream) _))
          (Extends_outside t (Event.closeStream stream) _)
        cases hd : env.decode stream with
        | error e =>
          simp only [hd, Option.some.injEq, Prod.mk.injEq] at h
          obtain ⟨h, _⟩ := h
          subst h
          exact ⟨e4, by simp, by simp [hy], by simp⟩
        | ok resp =>
          simp only [hd] at h
          by_cases hr : resp.Error = ""
          · simp only [hr, ne_eq, not_true_eq_false, if_false, Option.some.injEq,
              Prod.mk.injEq] at h
            obtain ⟨h, _⟩ := h
            subst h
            exact ⟨e4, by simp, by simp [hy], by simp⟩
          · simp only [hr, ne_eq, not_false_eq_true, if_true, Option.some.injEq,
              Prod.mk.injEq] at h
            obtain ⟨h, _⟩ := h
            subst h
            exact ⟨e4, by simp, by simp [hy], by simp⟩

theorem ConnectSSH_eq (senv : SSHEnv) (henv : HandshakeEnv) (req : ConnectRequest)
    (st : State) :
    ConnectSSH senv henv req st =
      match connectSSH senv req (resetForConnect senv.traffic st) with
      | (st3, some err) => some (st3, { Success := false, Error := err })
      | (st3, none) =>
        match performHandshake senv.traffic henv st3 with
        | none => none
        | some (st4, .error err) =>
          some (disconnectLocked senv.traffic st4, { Success := false, Error := err })
        | some (st4, .ok resp) => some (st4, { Success := true, Config := some resp }) := rfl

theorem rolledBack_disconnectLocked (t : Event → Nat × Nat) (st : State) (e : String) :
    rolledBack (some (disconnectLocked t st, { Success := false, Error := e })) e = true := by
  obtain ⟨h1, h2, h3, _⟩ := disconnectLocked_spec t st
  simp [rolledBack, h1, h2, h3]

theorem serverError_ne_empty (s : String) : "Server Error: " ++ s ≠ "" := by
  intro h
  have h1 := congrArg String.length h
  rw [String.length_append] at h1
  have h2 : "Server Error: ".length = 14 := by decide
  have h3 : "".length = 0 := by decide
  omega

/-- The failure of `ConnectSSH` when the TCP dial fails: fully rolled back. -/
theorem ConnectSSH_dial_failure (senv : SSHEnv) (henv : HandshakeEnv) (req : ConnectRequest)
    (st : State) (e : String) (h : senv.dialTimeout req.Host = .error e) :
    rolledBack (ConnectSSH senv henv req st) e = true := by
  obtain ⟨h1, h2, h3, _⟩ := resetForConnect_spec senv.traffic st
  rw [ConnectSSH_eq]
  simp [connectSSH, h, rolledBack, h1, h2, h3]

/-- The failure of `ConnectSSH` when the SSH handshake or authentication
fails: the dialled connection is closed and nothing is left behind. -/
theorem ConnectSSH_auth_failure (senv : SSHEnv) (henv : HandshakeEnv) (req : ConnectRequest)
    (st : State) (conn : Nat) (e : String) (h : senv.dialTimeout req.Host = .ok conn)
    (h2 : senv.newClientConn conn req.Host req.User (passwordAuths req) = .error e) :
    rolledBack (ConnectSSH senv henv req st) e = true := by
  obtain ⟨h1', h2', h3', _⟩ := resetForConnect_spec senv.traffic st
  rw [ConnectSSH_eq]
  simp [connectSSH, h, h2, rolledBack, h1', h2', h3']

/-- C4 fails on the code: with the dial and the SSH authentication succeeding
(client handle 2) and `client.NewSession()`, `session.Start(cmd)` or
`yamux.Client` failing, `ConnectSSH` from a fresh client returns
`Success = false` with the error text, and the global `sshClient` is still
set to the client, which was never closed (the counters hold the octets of
the SSH handshake and of the failed call). -/
theorem C4_sshClient_left_after_session_failure :
    (ConnectSSH
        { dialTimeout := fun _ => .ok 1, newClientConn := fun _ _ _ _ => .ok 2,
          newSession := fun _ => .error "ssh: rejected: administratively prohibited",
          startAgent := fun _ _ => none, yamuxClient := fun _ => .ok 4, traffic := exampleTraffic }
        { openStream := fun _ => .ok 5, encode := fun _ => none,
          decode := fun _ => .ok ⟨"2.0", some [], ""⟩ }
        ⟨"203.0.113.7:22", "alice", "secret", "", ""⟩ NewApp)
      = some
          ({ sshClient := some 2, yamuxSession := none, listeners := [],
             BytesSent := 2652, BytesReceived := 2528,
             trace := [Event.dialTimeout "203.0.113.7:22",
                       Event.newClientConn 1 "203.0.113.7:22" "alice" ["secret"],
                       Event.newSession 2] },
           { Success := false, Error := "ssh: rejected: administratively prohibited" })
    ∧ rolledBack (ConnectSSH
        { dialTimeout := fun _ => .ok 1, newClientConn := fun _ _ _ _ => .ok 2,
          newSession := fun _ => .error "ssh: rejected: administratively prohibited",
          startAgent := fun _ _ => none, yamuxClient := fun _ => .ok 4, traffic := exampleTraffic }
        { openStream := fun _ => .ok 5, encode := fun _ => none,
          decode := fun _ => .ok ⟨"2.0", some [], ""⟩ }
        ⟨"203.0.113.7:22", "alice", "secret", "", ""⟩ NewApp)
        "ssh: rejected: administratively prohibited" = false
    ∧ (ConnectSSH
        { dialTimeout := fun _ => .ok 1, newClientConn := fun _ _ _ _ => .ok 2,
          newSession := fun _ => .ok 3,
          startAgent := fun _ _ => some "Process exited with status 127",
          yamuxClient := fun _ => .ok 4, traffic := exampleTraffic }
        { openStream := fun _ => .ok 5, encode := fun _ => none,
          decode := fun _ => .ok ⟨"2.0", some [], ""⟩ }
        ⟨"203.0.113.7:22", "alice", "secret", "", ""⟩ NewApp).map
          (fun r => (r.1.sshClient, r.1.yamuxSession, r.2.Success))
      = some (some 2, none, false)
    ∧ (ConnectSSH
        { dialTimeout := fun _ => .ok 1, newClientConn := fun _ _ _ _ => .ok 2,
          newSession := fun _ => .ok 3, startAgent := fun _ _ => none,
          yamuxClient := fun _ => .error "yamux: invalid configuration",
          traffic := exampleTraffic }
        { openStream := fun _ => .ok 5, encode := fun _ => none,
          decode := fun _ => .ok ⟨"2.0", some [], ""⟩ }
        ⟨"203.0.113.7:22", "alice", "secret", "", ""⟩ NewApp).map
          (fun r => (r.1.sshClient, r.1.yamuxSession, r.2.Success))
      = some (some 2, none, false) := by
  decide

/-- C5: when the transport is established (`connectSSH` returns no error,
leaving the session handle `y`), `ConnectSSH` does not panic and: if the
handshake stream cannot be opened, the request cannot be written, or the
response cannot be decoded, it returns `Success = false` with the library's
error text (non-empty when that text is) and no `Config`; if the decoded
response has a non-empty `Error`, it returns `Success = false` with
`Server Error: <that text>`, which is non-empty, and no `Config`; in each of
these cases the state on return has no transport handle, no session handle
and an empty listener registry. If the response decodes with an empty
`Error`, it returns `Success = true` with `Config` that response, and the
transport and session handles stay in place. -/
theorem C5_handshake_outcomes (senv : SSHEnv) (henv : HandshakeEnv) (req : ConnectRequest)
    (st st3 : State)
    (hT : connectSSH senv req (resetForConnect senv.traffic st) = (st3, none)) :
    ∃ c y, st3.sshClient = some c ∧ st3.yamuxSession = some y
      ∧ (∀ e, henv.openStream y = .error e →
          rolledBack (ConnectSSH senv henv req st) e = true)
      ∧ (∀ s e, henv.openStream y = .ok s → henv.encode s = some e →
          rolledBack (ConnectSSH senv henv req st) e = true)
      ∧ (∀ s e, henv.openStream y = .ok s → henv.encode s = none →
          henv.decode s = .error e →
          rolledBack (ConnectSSH senv henv req st) e = true)
      ∧ (∀ s r, henv.openStream y = .ok s → henv.encode s = none →
          henv.decode s = .ok r → r.Error ≠ "" →
          rolledBack (ConnectSSH senv henv req st) ("Server Error: " ++ r.Error) = true
          ∧ "Server Error: " ++ r.Error ≠ "")
      ∧ (∀ s r, henv.openStream y = .ok s → henv.encode s = none →
          henv.decode s = .ok r → r.Error = "" →
          ∃ st', ConnectSSH senv henv req st
              = some (st', { Success := true, Error := "", Config := some r })
            ∧ st'.sshClient = some c ∧ st'.yamuxSession = some y
            ∧ st'.listeners = []) := by
  obtain ⟨c, y, hc, hy, hl⟩ := connectSSH_ok senv req _ st3 hT
  have hl0 : st3.listeners = [] := by
    rw [hl]
    exact (resetForConnect_spec senv.traffic st).1
  refine ⟨c, y, hc, hy, ?_, ?_, ?_, ?_, ?_⟩
  · intro e he
    rw [ConnectSSH_eq, hT]
    simp only [performHandshake, hy, he]
    exact rolledBack_disconnectLocked _ _ e
  · intro s e hs he
    rw [ConnectSSH_eq, hT]
    simp only [performHandshake, hy, hs, he]
    exact rolledBack_disconnectLocked _ _ e
  · intro s e hs hen hd
    rw [ConnectSSH_eq, hT]
    simp only [performHandshake, hy, hs, hen, hd]
    exact rolledBack_disconnectLocked _ _ e
  · intro s r hs hen hd hr
    refine ⟨?_, serverError_ne_empty _⟩
    rw [ConnectSSH_eq, hT]
    simp only [performHandshake, hy, hs, hen, hd, hr, ne_eq, not_false_eq_true, if_true]
    exact rolledBack_disconnectLocked _ _ _
  · intro s r hs hen hd hr
    rw [ConnectSSH_eq, hT]
    simp only [performHandshake, hy, hs, hen, hd, hr, ne_eq, not_true_eq_false, if_false]
    exact ⟨_, rfl, by simpa using hc, by simp [hy], by simpa using hl0⟩

/-- C5 with the transport established from a fresh client and the server
answering the handshake with the error text `unsupported version`. -/
theorem C5_handshake_outcomes_witness :
    connectSSH
        { dialTimeout := fun _ => .ok 1, newClientConn := fun _ _ _ _ => .ok 2,
          newSession := fun _ => .ok 3, startAgent := fun _ _ => none,
          yamuxClient := fun _ => .ok 4, traffic := exampleTraffic }
        ⟨"203.0.113.7:22", "alice", "secret", "", ""⟩
        (resetForConnect exampleTraffic NewApp)
      = ({ sshClient := some 2, yamuxSession := some 4, listeners := [],
           BytesSent := 2720, BytesReceived := 2580,
           trace := [Event.dialTimeout "203.0.113.7:22",
                     Event.newClientConn 1 "203.0.113.7:22" "alice" ["secret"],
                     Event.newSession 2, Event.startAgent 3 "./server-agent --stdio",
                     Event.yamuxClient 3] }, none)
    ∧ rolledBack
        (ConnectSSH
          { dialTimeout := fun _ => .ok 1, newClientConn := fun _ _ _ _ => .ok 2,
            newSession := fun _ => .ok 3, startAgent := fun _ _ => none,
            yamuxClient := fun _ => .ok 4, traffic := exampleTraffic }
          { openStream := fun _ => .ok 5, encode := fun _ => none,
            decode := fun _ => .ok ⟨"2.0", none, "unsupported version"⟩ }
          ⟨"203.0.113.7:22", "alice", "secret", "", ""⟩ NewApp)
        "Server Error: unsupported version" = true :=
  have hT : connectSSH
        { dialTimeout := fun _ => .ok 1, newClientConn := fun _ _ _ _ => .ok 2,
          newSession := fun _ => .ok 3, startAgent := fun _ _ => none,
          yamuxClient := fun _ => .ok 4, traffic := exampleTraffic }
        ⟨"203.0.113.7:22", "alice", "secret", "", ""⟩
        (resetForConnect exampleTraffic NewApp)
      = ({ sshClient := some 2, yamuxSession := some 4, listeners := [],
           BytesSent := 2720, BytesReceived := 2580,
           trace := [Event.dialTimeout "203.0.113.7:22",
                     Event.newClientConn 1 "203.0.113.7:22" "alice" ["secret"],
                     Event.newSession 2, Event.startAgent 3 "./server-agent --stdio",
                     Event.yamuxClient 3] }, none) := by decide
  match C5_handshake_outcomes
      { dialTimeout := fun _ => .ok 1, newClientConn := fun _ _ _ _ => .ok 2,
        newSession := fun _ => .ok 3, startAgent := fun _ _ => none,
        yamuxClient := fun _ => .ok 4, traffic := exampleTraffic }
      { openStream := fun _ => .ok 5, encode := fun _ => none,
        decode := fun _ => .ok ⟨"2.0", none, "unsupported version"⟩ }
      ⟨"203.0.113.7:22", "alice", "secret", "", ""⟩ NewApp _ hT with
  | ⟨_, _, _, _, _, _, _, h4, _⟩ =>
    ⟨hT, (h4 5 ⟨"2.0", none, "unsupported version"⟩ rfl rfl rfl (by decide)).1⟩

end client

/-! ## The wire protocol: encoding and decoding by the field tags -/

namespace protocol

open json

theorem unmarshal_marshal_HandshakeRequest (r : HandshakeRequest) :
    unmarshalHandshakeRequest (marshalHandshakeRequest r) = .ok r := rfl

theorem unmarshal_marshal_ConnectRequest (r : ConnectRequest) :
    unmarshalConnectRequest (marshalConnectRequest r) = .ok r := rfl

theorem unmarshal_marshal_ConnectResponse (r : ConnectResponse) :
    unmarshalConnectResponse (marshalConnectResponse r) = .ok r := by
  obtain ⟨b, e⟩ := r
  by_cases he : e = ""
  · subst he
    rfl
  · have h1 : marshalConnectResponse ⟨b, e⟩
        = .object [("success", .bool b), ("error", .string e)] := by
      simp [marshalConnectResponse, omitEmptyString, he]
    rw [h1]
    rfl

theorem setPortConfig_local_port (p : PortConfig) (n : Int)
    (h : -9223372036854775808 ≤ n ∧ n ≤ 9223372036854775807) :
    setPortConfig p "local_port" (.number n) = .ok { p with LocalPort := n } := by
  have e : setPortConfig p "local_port" (.number n) =
      (match decodeInt (.number n) p.LocalPort with
       | .error e => .error e
       | .ok n => .ok { p with LocalPort := n }) := rfl
  rw [e]
  simp [decodeInt, h]

theorem decodeFields_append {T : Type} (set : T → String → Value → Except String T)
    (xs ys : List (String × Value)) :
    ∀ t t2 : T, decodeFields set xs t = .ok t2 →
      decodeFields set (xs ++ ys) t = decodeFields set ys t2 := by
  induction xs with
  | nil =>
    intro t t2 h
    simp only [decodeFields, Except.ok.injEq] at h
    subst h
    rfl
  | cons hd tl ih =>
    intro t t2 h
    obtain ⟨k, v⟩ := hd
    cases hs : set t k v with
    | error e => simp [decodeFields, hs] at h
    | ok t3 =>
      simp only [decodeFields, hs] at h
      simp only [List.cons_append, decodeFields, hs]
      exact ih t3 t2 h

theorem unmarshal_marshal_PortConfig (p : PortConfig) (h : p.inRange) :
    unmarshalPortConfig (marshalPortConfig p) = .ok p := by
  obtain ⟨name, target, desc, static, port⟩ := p
  have s1 : decodeFields setPortConfig [("name", .string name), ("target", .string target)]
      ⟨"", "", "", false, 0⟩ = .ok ⟨name, target, "", false, 0⟩ := rfl
  have s2 : decodeFields setPortConfig (omitEmptyString "description" desc)
      ⟨name, target, "", false, 0⟩ = .ok ⟨name, target, desc, false, 0⟩ := by
    by_cases hd : desc = ""
    · subst hd
      rfl
    · simp only [omitEmptyString, hd, if_false]
      rfl
  have s3 : decodeFields setPortConfig (omitEmptyBool "static" static)
      ⟨name, target, desc, false, 0⟩ = .ok ⟨name, target, desc, static, 0⟩ := by
    cases static <;> rfl
  have s4 : decodeFields setPortConfig (omitEmptyInt "local_port" port)
      ⟨name, target, desc, static, 0⟩ = .ok ⟨name, target, desc, static, port⟩ := by
    by_cases hp : port = 0
    · subst hp
      rfl
    · simp only [omitEmptyInt, hp, if_false, decodeFields]
      rw [setPortConfig_local_port _ port h]
  show decodeFields setPortConfig
      ([("name", .string name), ("target", .string target)]
        ++ omitEmptyString "description" desc ++ omitEmptyBool "static" static
        ++ omitEmptyInt "local_port" port) ⟨"", "", "", false, 0⟩ = _
  rw [List.append_assoc, List.append_assoc, decodeFields_append _ _ _ _ _ s1,
    decodeFields_append _ _ _ _ _ s2, decodeFields_append _ _ _ _ _ s3]
  exact s4

theorem decodeElems_marshal_ports (ps : List PortConfig) (h : ∀ p ∈ ps, p.inRange) :
    decodeElems (decodeStruct setPortConfig) zeroPortConfig (ps.map marshalPortConfig) []
      = .ok ps := by
  induction ps with
  | nil => rfl
  | cons p rest ih =>
    have hp : decodeStruct setPortConfig (marshalPortConfig p) zeroPortConfig = .ok p :=
      unmarshal_marshal_PortConfig p (h p (List.mem_cons_self _ _))
    have hr := ih (fun q hq => h q (List.mem_cons_of_mem _ hq))
    simp only [List.map_cons, decodeElems, List.headD_nil, List.tail_nil, hp, hr]

theorem decodeSlice_marshalPorts (ps : Slice PortConfig) (h : ∀ p ∈ ps.elems, p.inRange) :
    decodeSlice (decodeStruct setPortConfig) zeroPortConfig (marshalPorts ps) none
      = .ok ps := by
  cases ps with
  | none => rfl
  | some l =>
    simp only [marshalPorts, decodeSlice, Slice.elems, decodeElems_marshal_ports l h]

theorem unmarshal_marshal_HandshakeResponse (r : HandshakeResponse)
    (h : ∀ p ∈ r.AllowedPorts.elems, p.inRange) :
    unmarshalHandshakeResponse (marshalHandshakeResponse r) = .ok r := by
  obtain ⟨version, ports, err⟩ := r
  have e2 : setHandshakeResponse ⟨version, none, ""⟩ "allowed_ports" (marshalPorts ports) =
      (match decodeSlice (decodeStruct setPortConfig) zeroPortConfig (marshalPorts ports)
          none with
       | .error e => .error e
       | .ok ps => .ok ⟨version, ps, ""⟩) := rfl
  have s1 : decodeFields setHandshakeResponse
      [("version", .string version), ("allowed_ports", marshalPorts ports)]
      ⟨"", none, ""⟩ = .ok ⟨version, ports, ""⟩ := by
    have e1 : setHandshakeResponse ⟨"", none, ""⟩ "version" (.string version)
        = .ok ⟨version, none, ""⟩ := rfl
    simp only [decodeFields, e1, e2, decodeSlice_marshalPorts ports h]
  have s2 : decodeFields setHandshakeResponse (omitEmptyString "error" err)
      ⟨version, ports, ""⟩ = .ok ⟨version, ports, err⟩ := by
    by_cases he : err = ""
    · subst he
      rfl
    · simp only [omitEmptyString, he, if_false]
      rfl
  show decodeFields setHandshakeResponse
      ([("version", .string version), ("allowed_ports", marshalPorts ports)]
        ++ omitEmptyString "error" err) ⟨"", none, ""⟩ = _
  rw [decodeFields_append _ _ _ _ _ s1]
  exact s2

theorem envelope_connect (f : Float64Model) (t : String) :
    unmarshalMessage f (marshalMessage f (client.connectMessage t))
      = .ok { Type_ := MsgTypeConnect, Payload := .decoded (.map [("target", .string t)]) } :=
  rfl

/-- C10: at the level of JSON values, marshalling by the field tags of
`protocol.go` and decoding into a zero value of the same type gives back the
value, for every `HandshakeRequest`, every `HandshakeResponse` (nil, empty or
non-empty `AllowedPorts`, each entry's `omitempty` fields empty or set, its
`LocalPort` a Go `int`), every `ConnectRequest` and every `ConnectResponse`;
and for the message `handleForwarding` sends for a target, the server's
decoding into a `Message` (payload into an `any`) gives type `connect`, and
re-marshalling the payload and decoding it into a `ConnectRequest` gives the
target that was sent. -/
theorem C10_wire_round_trip (f : Float64Model) (hreq : HandshakeRequest)
    (hresp : HandshakeResponse) (creq : ConnectRequest) (cresp : ConnectResponse)
    (hports : ∀ p ∈ hresp.AllowedPorts.elems, p.inRange) :
    unmarshalHandshakeRequest (marshalHandshakeRequest hreq) = .ok hreq
    ∧ unmarshalHandshakeResponse (marshalHandshakeResponse hresp) = .ok hresp
    ∧ unmarshalConnectRequest (marshalConnectRequest creq) = .ok creq
    ∧ unmarshalConnectResponse (marshalConnectResponse cresp) = .ok cresp
    ∧ (∃ msg, unmarshalMessage f (marshalMessage f (client.connectMessage creq.Target))
          = .ok msg
        ∧ msg.Type_ = MsgTypeConnect
        ∧ server.connectPayload f msg = .ok { Target := creq.Target }) :=
  ⟨unmarshal_marshal_HandshakeRequest hreq,
   unmarshal_marshal_HandshakeResponse hresp hports,
   unmarshal_marshal_ConnectRequest creq,
   unmarshal_marshal_ConnectResponse cresp,
   ⟨_, envelope_connect f creq.Target, rfl, rfl⟩⟩

/-- C10 at a response with a nil-free list of two entries, one with every
optional field empty and one with every optional field set. -/
theorem C10_wire_round_trip_witness :
    unmarshalHandshakeResponse (marshalHandshakeResponse
        ⟨"2.0", some [⟨"web", "10.0.0.5:80", "", false, 0⟩,
                      ⟨"db", "10.0.0.6:5432", "database", true, 15432⟩], ""⟩)
      = .ok ⟨"2.0", some [⟨"web", "10.0.0.5:80", "", false, 0⟩,
                          ⟨"db", "10.0.0.6:5432", "database", true, 15432⟩], ""⟩
    ∧ unmarshalConnectResponse (marshalConnectResponse ⟨false, "Target 10.0.0.5:81 not allowed"⟩)
      = .ok ⟨false, "Target 10.0.0.5:81 not allowed"⟩ :=
  have h := C10_wire_round_trip ⟨fun _ => true, fun n => .number n⟩ ⟨"2.0"⟩
    ⟨"2.0", some [⟨"web", "10.0.0.5:80", "", false, 0⟩,
                  ⟨"db", "10.0.0.6:5432", "database", true, 15432⟩], ""⟩
    ⟨"10.0.0.5:81"⟩ ⟨false, "Target 10.0.0.5:81 not allowed"⟩
    (by
      intro p hp
      simp only [Slice.elems, List.mem_cons, List.mem_singleton, List.not_mem_nil,
        or_false] at hp
      rcases hp with hp | hp <;> subst hp <;> exact ⟨by decide, by decide⟩)
  ⟨h.2.1, h.2.2.2.1⟩

end protocol

/-! ## The server: `handleStream` and its deferred calls -/

namespace server

open protocol

theorem handleConnect_proxy_metrics (cfg : ServerConfig) (env : ConnEnv) (m : Metrics)
    (req : ConnectRequest) (hA : allowed cfg.AllowedPorts.elems req.Target = true)
    (hD : env.dial req.Target = none) (hE : env.encodeOk { Success := true } = true) :
    (handleConnect cfg env m req).1
      = { m with TotalBytes := wrapInt64 (m.TotalBytes + env.up + env.down) } := by
  cases hU : env.upFirst
  · simp [handleConnect, hA, hD, hE, hU, copyUpstream, copyDownstream, AddInt64_AddInt64]
    congr 1
    ring
  · simp [handleConnect, hA, hD, hE, hU, copyUpstream, copyDownstream, AddInt64_AddInt64]

theorem handleConnect_counters (cfg : ServerConfig) (env : ConnEnv) (m : Metrics)
    (req : ConnectRequest) :
    (handleConnect cfg env m req).1.ActiveStreams = m.ActiveStreams
    ∧ (handleConnect cfg env m req).1.TotalStreams = m.TotalStreams
    ∧ (handleConnect cfg env m req).1.HandshakeCount = m.HandshakeCount
    ∧ (handleConnect cfg env m req).1.ConnectCount = m.ConnectCount
    ∧ ((handleConnect cfg env m req).1.TotalBytes = m.TotalBytes
        ∨ (handleConnect cfg env m req).1.TotalBytes
            = wrapInt64 (m.TotalBytes + env.up + env.down))
    ∧ ((handleConnect cfg env m req).1.ConnectErrors = m.ConnectErrors
        ∨ (handleConnect cfg env m req).1.ConnectErrors = AddInt64 m.ConnectErrors 1)
    ∧ ((handleConnect cfg env m req).1.DeniedRequests = m.DeniedRequests
        ∨ (handleConnect cfg env m req).1.DeniedRequests = AddInt64 m.DeniedRequests 1) := by
  cases hA : allowed cfg.AllowedPorts.elems req.Target
  · simp [handleConnect, hA]
  · cases hD : env.dial req.Target with
    | some e => simp [handleConnect, hA, hD]
    | none =>
      cases hE : env.encodeOk { Success := true }
      · simp [handleConnect, hA, hD, hE]
      · rw [handleConnect_proxy_metrics cfg env m req hA hD hE]
        exact ⟨rfl, rfl, rfl, rfl, Or.inr rfl, Or.inl rfl, Or.inl rfl⟩

theorem handleStreamBody_counters (cfg : ServerConfig) (env : StreamEnv) (m : Metrics) :
    (handleStreamBody cfg env m).1.ActiveStreams = m.ActiveStreams
    ∧ (handleStreamBody cfg env m).1.TotalStreams = m.TotalStreams
    ∧ ((handleStreamBody cfg env m).1.HandshakeCount = m.HandshakeCount
        ∨ (handleStreamBody cfg env m).1.HandshakeCount = AddInt64 m.HandshakeCount 1)
    ∧ ((handleStreamBody cfg env m).1.ConnectCount = m.ConnectCount
        ∨ (handleStreamBody cfg env m).1.ConnectCount = AddInt64 m.ConnectCount 1)
    ∧ ((handleStreamBody cfg env m).1.TotalBytes = m.TotalBytes
        ∨ (handleStreamBody cfg env m).1.TotalBytes
            = wrapInt64 (m.TotalBytes + env.conn.up + env.conn.down))
    ∧ ((handleStreamBody cfg env m).1.ConnectErrors = m.ConnectErrors
        ∨ (handleStreamBody cfg env m).1.ConnectErrors = AddInt64 m.ConnectErrors 1)
    ∧ ((handleStreamBody cfg env m).1.DeniedRequests = m.DeniedRequests
        ∨ (handleStreamBody cfg env m).1.DeniedRequests = AddInt64 m.DeniedRequests 1) := by
  cases hd : env.decode with
  | error e => simp [handleStreamBody, hd]
  | ok wire =>
    cases hm : unmarshalMessage env.float64 wire with
    | error e => simp [handleStreamBody, hd, hm]
    | ok msg =>
      by_cases h1 : msg.Type_ = MsgTypeHandshake
      · simp [handleStreamBody, hd, hm, h1]
      · by_cases h2 : msg.Type_ = MsgTypeConnect
        · have hne : ¬ MsgTypeConnect = MsgTypeHandshake := by decide
          cases hp : connectPayload env.float64 msg with
          | error e => simp [handleStreamBody, hd, hm, h1, h2, hp, hne]
          | ok freq =>
            simp only [handleStreamBody, hd, hm, h1, h2, hp, hne, if_true, if_false]
            obtain ⟨c1, c2, c3, c4, c5, c6, c7⟩ := handleConnect_counters cfg env.conn
              { m with ConnectCount := AddInt64 m.ConnectCount 1 } freq
            exact ⟨c1, c2, Or.inl c3, Or.inr c4, c5, c6, c7⟩
        · simp [handleStreamBody, hd, hm, h1, h2]

theorem handleStreamBody_events (cfg : ServerConfig) (env : StreamEnv) (m : Metrics) :
    ∀ ev ∈ (handleStreamBody cfg env m).2,
      ev ≠ HandlerEvent.closeStream ∧ ev ≠ HandlerEvent.releaseStream := by
  cases hd : env.decode with
  | error e => simp [handleStreamBody, hd]
  | ok wire =>
    cases hm : unmarshalMessage env.float64 wire with
    | error e => simp [handleStreamBody, hd, hm]
    | ok msg =>
      by_cases h1 : msg.Type_ = MsgTypeHandshake
      · simp [handleStreamBody, hd, hm, h1, handleHandshake]
      · by_cases h2 : msg.Type_ = MsgTypeConnect
        · have hne : ¬ MsgTypeConnect = MsgTypeHandshake := by decide
          cases hp : connectPayload env.float64 msg with
          | error e => simp [handleStreamBody, hd, hm, h1, h2, hp, hne]
          | ok freq =>
            simp only [handleStreamBody, hd, hm, h1, h2, hp, hne, if_true, if_false]
            intro ev hev
            simp only [List.mem_append, List.mem_cons, List.mem_singleton, List.not_mem_nil,
              or_false, List.mem_map] at hev
            rcases hev with ((hev | hev) | hev) | ⟨c, _, hev⟩ <;> subst hev <;> simp
        · simp [handleStreamBody, hd, hm, h1, h2]

theorem count_deferred (body : List HandlerEvent)
    (h : ∀ ev ∈ body, ev ≠ HandlerEvent.closeStream ∧ ev ≠ HandlerEvent.releaseStream) :
    (body ++ [HandlerEvent.closeStream, HandlerEvent.releaseStream]).count
        HandlerEvent.releaseStream = 1
    ∧ (body ++ [HandlerEvent.closeStream, HandlerEvent.releaseStream]).count
        HandlerEvent.closeStream = 1 := by
  have h1 : body.count HandlerEvent.releaseStream = 0 :=
    List.count_eq_zero.2 (fun hmem => (h _ hmem).2 rfl)
  have h2 : body.count HandlerEvent.closeStream = 0 :=
    List.count_eq_zero.2 (fun hmem => (h _ hmem).1 rfl)
  constructor
  · rw [List.count_append, h1]
    decide
  · rw [List.count_append, h2]
    decide

/-- C11: for the handler of an admitted stream `x` (a running handler in a
state where the channel holds one token per running handler, as in every
state the server process reaches, whatever its counters), `handleStream`
returns whatever the
outcomes of its outside calls are, so on every way out (decode failure,
handshake, invalid connect payload, denied target, dial failure,
response-write failure, completed proxying, unknown type): what it does ends
with its two deferred calls, `stream.Close()` then `s.releaseStream()`, each
of which it runs exactly once; on return the channel holds one token less,
`x` is no longer among the running handlers, which are one fewer, and
`ActiveStreams` is what `atomic.AddInt64(_, -1)` makes of it (exactly one
lower for an `int64` above the smallest), the body having left it alone. -/
theorem C11_handleStream_releases_once (config : ServerConfig) (st : ServeState)
    (env : StreamEnv) (x : Nat) (hI : Inv config st) (hx : x ∈ st.handlers) :
    ∃ st2 evs, handleStream st env x = some (st2, evs)
      ∧ evs = (handleStreamBody st.server.config env st.metrics).2
                ++ [HandlerEvent.closeStream, HandlerEvent.releaseStream]
      ∧ evs.count HandlerEvent.releaseStream = 1
      ∧ evs.count HandlerEvent.closeStream = 1
      ∧ st2.server.streamLimitLen + 1 = st.server.streamLimitLen
      ∧ st2.handlers = st.handlers.erase x
      ∧ st2.handlers.length + 1 = st.handlers.length
      ∧ st2.server.streamLimitLen = st2.handlers.length
      ∧ st2.metrics.ActiveStreams = AddInt64 st.metrics.ActiveStreams (-1)
      ∧ (-9223372036854775808 < st.metrics.ActiveStreams →
          st.metrics.ActiveStreams ≤ maxInt64 →
          st2.metrics.ActiveStreams = st.metrics.ActiveStreams - 1) := by
  have hI2 : Inv config
      { st with metrics := (handleStreamBody st.server.config env st.metrics).1 } := hI
  obtain ⟨st2, hr, he, hlen, hl, _, hm, _, hInv⟩ :=
    releaseStream_of_mem config
      { st with metrics := (handleStreamBody st.server.config env st.metrics).1 } x hI2 hx
  obtain ⟨hc1, hc2⟩ := count_deferred _
    (handleStreamBody_events st.server.config env st.metrics)
  have hA : st2.metrics.ActiveStreams = AddInt64 st.metrics.ActiveStreams (-1) := by
    rw [hm]
    show AddInt64 (handleStreamBody st.server.config env st.metrics).1.ActiveStreams (-1) = _
    rw [(handleStreamBody_counters st.server.config env st.metrics).1]
  refine ⟨st2, _, ?_, rfl, hc1, hc2, hl, he, hlen, hInv.2.2.1, hA, ?_⟩
  · simp only [handleStream, hr]
  · intro h1 h2
    rw [hA]
    unfold AddInt64
    unfold maxInt64 at h2
    exact wrapInt64_of_inRange _ (by omega) (by omega)

/-- C11 at `MaxStreams = 1`, the handler of stream 7 running, on a connect
request for a target that is not allowed. -/
theorem C11_handleStream_releases_once_witness :
    (handleStream
        { server := { config := { defaultConfig with MaxStreams := 1 },
                      streamLimitCap := 1, streamLimitLen := 1 }
          handlers := [7]
          metrics := { ActiveStreams := 1, TotalStreams := 1 }
          trace := [ServeEvent.goHandleStream 7] }
        { float64 := ⟨fun _ => true, fun n => .number n⟩
          decode := .ok (marshalMessage ⟨fun _ => true, fun n => .number n⟩
            (client.connectMessage "10.0.0.5:81"))
          handshakeEncodeOk := true
          conn := ⟨fun _ => none, fun _ => true, 0, 0, true⟩ } 7).map
        (fun r => (r.1.server.streamLimitLen, r.1.handlers, r.1.metrics.ActiveStreams,
          r.2.count HandlerEvent.releaseStream, r.2.count HandlerEvent.closeStream))
      = some (0, [], 0, 1, 1) :=
  have hR : Reachable { defaultConfig with MaxStreams := 1 }
      { server := { config := { defaultConfig with MaxStreams := 1 },
                    streamLimitCap := 1, streamLimitLen := 1 }
        handlers := [7]
        metrics := { ActiveStreams := 1, TotalStreams := 1 }
        trace := [ServeEvent.goHandleStream 7] } :=
    ⟨{ server := { config := { defaultConfig with MaxStreams := 1 },
                   streamLimitCap := 1, streamLimitLen := 0 }
       handlers := [], metrics := {}, trace := [] }, [Step.accept 7], by decide, by decide⟩
  match C11_handleStream_releases_once _ _
      { float64 := ⟨fun _ => true, fun n => .number n⟩
        decode := .ok (marshalMessage ⟨fun _ => true, fun n => .number n⟩
          (client.connectMessage "10.0.0.5:81"))
        handshakeEncodeOk := true
        conn := ⟨fun _ => none, fun _ => true, 0, 0, true⟩ } 7
      (Inv_of_Reachable _ _ hR) (by decide) with
  | ⟨_, _, h1, _, h3, h4, h5, h6, _, _, h9, h10⟩ => by
    rw [h1]
    simp only [Option.map_some', Option.some.injEq, Prod.mk.injEq]
    refine ⟨?_, ?_, ?_, h3, h4⟩
    · simp only at h5
      omega
    · rw [h6]
      decide
    · rw [h10 (by decide) (by decide)]
      decide

end server

namespace server

open protocol

/-- Each of the eight ways out of `handleStream` is taken under some outcomes
of its outside calls, here with the allow-list `{"10.0.0.5:80"}`. -/
theorem exitPath_each_taken :
    exitPath { defaultConfig with AllowedPorts := some [⟨"web", "10.0.0.5:80", "", false, 0⟩] }
        ⟨⟨fun _ => true, fun n => .number n⟩, .error "EOF", true,
          ⟨fun _ => none, fun _ => true, 0, 0, true⟩⟩ = .decodeFailure
    ∧ exitPath { defaultConfig with AllowedPorts := some [⟨"web", "10.0.0.5:80", "", false, 0⟩] }
        ⟨⟨fun _ => true, fun n => .number n⟩,
          .ok (marshalMessage ⟨fun _ => true, fun n => .number n⟩ client.handshakeMessage), true,
          ⟨fun _ => none, fun _ => true, 0, 0, true⟩⟩ = .handshake
    ∧ exitPath { defaultConfig with AllowedPorts := some [⟨"web", "10.0.0.5:80", "", false, 0⟩] }
        ⟨⟨fun _ => true, fun n => .number n⟩,
          .ok (.object [("type", .string "connect"),
                        ("payload", .object [("target", .number 5)])]), true,
          ⟨fun _ => none, fun _ => true, 0, 0, true⟩⟩ = .invalidPayload
    ∧ exitPath { defaultConfig with AllowedPorts := some [⟨"web", "10.0.0.5:80", "", false, 0⟩] }
        ⟨⟨fun _ => true, fun n => .number n⟩,
          .ok (marshalMessage ⟨fun _ => true, fun n => .number n⟩
            (client.connectMessage "10.0.0.5:81")), true,
          ⟨fun _ => none, fun _ => true, 0, 0, true⟩⟩ = .deniedTarget
    ∧ exitPath { defaultConfig with AllowedPorts := some [⟨"web", "10.0.0.5:80", "", false, 0⟩] }
        ⟨⟨fun _ => true, fun n => .number n⟩,
          .ok (marshalMessage ⟨fun _ => true, fun n => .number n⟩
            (client.connectMessage "10.0.0.5:80")), true,
          ⟨fun _ => some "connection refused", fun _ => true, 0, 0, true⟩⟩ = .dialFailure
    ∧ exitPath { defaultConfig with AllowedPorts := some [⟨"web", "10.0.0.5:80", "", false, 0⟩] }
        ⟨⟨fun _ => true, fun n => .number n⟩,
          .ok (marshalMessage ⟨fun _ => true, fun n => .number n⟩
            (client.connectMessage "10.0.0.5:80")), true,
          ⟨fun _ => none, fun _ => false, 0, 0, true⟩⟩ = .responseWriteFailure
    ∧ exitPath { defaultConfig with AllowedPorts := some [⟨"web", "10.0.0.5:80", "", false, 0⟩] }
        ⟨⟨fun _ => true, fun n => .number n⟩,
          .ok (marshalMessage ⟨fun _ => true, fun n => .number n⟩
            (client.connectMessage "10.0.0.5:80")), true,
          ⟨fun _ => none, fun _ => true, 3, 4, true⟩⟩ = .proxied
    ∧ exitPath { defaultConfig with AllowedPorts := some [⟨"web", "10.0.0.5:80", "", false, 0⟩] }
        ⟨⟨fun _ => true, fun n => .number n⟩,
          .ok (.object [("type", .string "ping"), ("payload", .null)]), true,
          ⟨fun _ => none, fun _ => true, 0, 0, true⟩⟩ = .unknownType := by
  refine ⟨rfl, rfl, rfl, rfl, rfl, rfl, rfl, rfl⟩

end server

/-! ## The proxy phase: when the handler returns -/

namespace proxy

theorem proxyInv_init (receives : Nat) : Inv receives {} :=
  ⟨rfl, Nat.zero_le _, fun h => by simp at h⟩

theorem proxyInv_step (receives : Nat) (s s2 : State) (a : Step) (h : Inv receives s)
    (hs : step receives s a = some s2) : Inv receives s2 := by
  obtain ⟨u, d, len, rec, ret⟩ := s
  obtain ⟨h1, h2, h3⟩ := h
  simp only [finished] at h1
  cases a with
  | upFinishes =>
    cases u with
    | true => simp [step] at hs
    | false =>
      simp only [step, Bool.false_eq_true, if_false, Option.some.injEq] at hs
      subst hs
      refine ⟨?_, h2, h3⟩
      simp only [finished, if_true, Bool.false_eq_true, if_false] at h1 ⊢
      omega
  | downFinishes =>
    cases d with
    | true => simp [step] at hs
    | false =>
      simp only [step, Bool.false_eq_true, if_false, Option.some.injEq] at hs
      subst hs
      refine ⟨?_, h2, h3⟩
      simp only [finished, if_true, Bool.false_eq_true, if_false] at h1 ⊢
      omega
  | receive =>
    by_cases hc : rec < receives ∧ 0 < len
    · simp only [step, hc, and_self, if_true, Option.some.injEq] at hs
      subst hs
      refine ⟨?_, ?_, ?_⟩
      · simp only [finished] at h1 ⊢
        omega
      · show rec + 1 ≤ receives
        omega
      · intro hr
        have := h3 hr
        simp only at this
        omega
    · simp [step, hc] at hs
  | handlerReturns =>
    by_cases hc : rec = receives ∧ ret = false
    · obtain ⟨hc1, hc2⟩ := hc
      subst hc1 hc2
      simp only [step, and_self, if_true, Option.some.injEq] at hs
      subst hs
      refine ⟨?_, Nat.le_refl _, fun _ => rfl⟩
      simpa [finished] using h1
    · simp [step, hc] at hs

theorem proxyInv_run (receives : Nat) (steps : List Step) :
    ∀ s s2 : State, Inv receives s → run receives s steps = some s2 → Inv receives s2 := by
  induction steps with
  | nil =>
    intro s s2 h hr
    simp only [run, Option.some.injEq] at hr
    subst hr
    exact h
  | cons a rest ih =>
    intro s s2 h hr
    cases hs : step receives s a with
    | none => simp [run, hs] at hr
    | some s3 =>
      simp only [run, hs] at hr
      exact ih s3 s2 (proxyInv_step receives s s3 a h hs) hr

theorem returned_finished (receives : Nat) (steps : List Step) (s : State)
    (hr : run receives {} steps = some s) (hret : s.returned = true) :
    receives ≤ finished s := by
  obtain ⟨h1, _, h3⟩ := proxyInv_run receives steps {} s (proxyInv_init receives) hr
  have := h3 hret
  omega

theorem completion_returns (receives : Nat) (hle : receives ≤ 2) (s : State)
    (h : Inv receives s) :
    (run receives s (completion receives s)).map (fun s2 => s2.returned) = some true := by
  obtain ⟨u, d, len, rec, ret⟩ := s
  obtain ⟨h1, h2, h3⟩ := h
  simp only at h2
  have hl : len ≤ 2 := by
    cases u <;> cases d <;> simp [finished] at h1 <;> omega
  interval_cases receives <;> interval_cases rec <;> interval_cases len <;>
    cases u <;> cases d <;> cases ret <;>
    first
    | decide
    | (exfalso; simp [finished] at h1)

/-- C12, amended to what each side does: in every schedule of the proxy phase
of the server's `handleConnect` (two `<-done`), once the handler has returned
(and its deferred closes and the release of the slot have run) both copiers
have reported completion, and from every state of the phase the handler does
return once the copiers have finished; in
every schedule of the proxy phase of the client's `handleForwarding` (one
`<-done`) a handler that has returned has seen at least one copier report
completion, and it can return, closing the stream and the local connection,
while the other copier has not finished. -/
theorem C12_join_on_server_first_on_client :
    (∀ steps s, run server.proxyReceives {} steps = some s → s.returned = true →
        s.upDone = true ∧ s.downDone = true)
    ∧ run server.proxyReceives {}
          [Step.upFinishes, Step.downFinishes, Step.receive, Step.receive, Step.handlerReturns]
        = some { upDone := true, downDone := true, doneLen := 0, received := 2,
                 returned := true }
    ∧ (∀ steps s, run server.proxyReceives {} steps = some s →
        (run server.proxyReceives s (completion server.proxyReceives s)).map
          (fun s2 => s2.returned) = some true)
    ∧ run server.proxyReceives {} [Step.upFinishes, Step.receive, Step.handlerReturns] = none
    ∧ run server.proxyReceives {} [Step.downFinishes, Step.receive, Step.handlerReturns] = none
    ∧ (∀ steps s, run client.proxyReceives {} steps = some s → s.returned = true →
        s.upDone = true ∨ s.downDone = true)
    ∧ run client.proxyReceives {} [Step.upFinishes, Step.receive, Step.handlerReturns]
        = some { upDone := true, downDone := false, doneLen := 0, received := 1,
                 returned := true }
    ∧ run client.proxyReceives {} [Step.downFinishes, Step.receive, Step.handlerReturns]
        = some { upDone := false, downDone := true, doneLen := 0, received := 1,
                 returned := true } := by
  refine ⟨?_, by decide, ?_, by decide, by decide, ?_, by decide, by decide⟩
  · intro steps s hr hret
    have h := returned_finished server.proxyReceives steps s hr hret
    unfold server.proxyReceives finished at h
    cases hu : s.upDone <;> cases hd : s.downDone <;> simp [hu, hd] at h ⊢
  · intro steps s hr
    exact completion_returns server.proxyReceives (by decide) s
      (proxyInv_run server.proxyReceives steps {} s (proxyInv_init _) hr)
  · intro steps s hr hret
    have h := returned_finished client.proxyReceives steps s hr hret
    unfold client.proxyReceives finished at h
    cases hu : s.upDone <;> cases hd : s.downDone <;> simp [hu, hd] at h ⊢

/-- C12 fails on the client: `handleForwarding` passes a single `<-done`, so
with only the upstream copy finished the handler returns (and its deferred
`stream.Close()` and `localConn.Close()` run) while the downstream copier
has not reported completion. -/
theorem C12_counterexample_client_returns_after_first :
    (run client.proxyReceives {} [Step.upFinishes, Step.receive, Step.handlerReturns]).map
        (fun s => (s.returned, s.upDone, s.downDone)) = some (true, true, false) := by
  decide

end proxy

/-! ## The counters: which operations lower them -/

namespace client

theorem tally_sent (t : Event → Nat × Nat) (evs : List Event) :
    ∀ c : Nat × Nat, c.1 < 18446744073709551616 →
      (tally t evs c).1 = (c.1 + sentOn t evs) % 18446744073709551616 := by
  induction evs with
  | nil =>
    intro c hc
    simp only [tally, sentOn, List.map_nil, List.sum_nil, Nat.add_zero]
    omega
  | cons ev rest ih =>
    intro c hc
    have hS : sentOn t (ev :: rest)
        = (if overConnection ev then (t ev).1 else 0) + sentOn t rest := by
      simp [sentOn]
    rw [hS]
    by_cases ho : overConnection ev = true
    · simp only [tally, ho, if_true]
      rw [ih _ (Nat.mod_lt _ (by decide))]
      simp only
      omega
    · simp only [tally, ho, Bool.false_eq_true, if_false]
      rw [ih c hc]
      omega

theorem tally_received (t : Event → Nat × Nat) (evs : List Event) :
    ∀ c : Nat × Nat, c.2 < 18446744073709551616 →
      (tally t evs c).2 = (c.2 + receivedOn t evs) % 18446744073709551616 := by
  induction evs with
  | nil =>
    intro c hc
    simp only [tally, receivedOn, List.map_nil, List.sum_nil, Nat.add_zero]
    omega
  | cons ev rest ih =>
    intro c hc
    have hS : receivedOn t (ev :: rest)
        = (if overConnection ev then (t ev).2 else 0) + receivedOn t rest := by
      simp [receivedOn]
    rw [hS]
    by_cases ho : overConnection ev = true
    · simp only [tally, ho, if_true]
      rw [ih _ (Nat.mod_lt _ (by decide))]
      simp only
      omega
    · simp only [tally, ho, Bool.false_eq_true, if_false]
      rw [ih c hc]
      omega

theorem Extends_counters (t : Event → Nat × Nat) (a b : State) (h : Extends t a b)
    (hs : a.BytesSent < 18446744073709551616) (hr : a.BytesReceived < 18446744073709551616) :
    b.BytesSent = (a.BytesSent + sentOn t (appended a b)) % 18446744073709551616
    ∧ b.BytesReceived
        = (a.BytesReceived + receivedOn t (appended a b)) % 18446744073709551616 := by
  obtain ⟨_, hc⟩ := Extends_appended t a b h
  have h1 := congrArg Prod.fst hc
  have h2 := congrArg Prod.snd hc
  simp only at h1 h2
  rw [h1, h2]
  exact ⟨tally_sent t _ _ hs, tally_received t _ _ hr⟩

theorem ConnectSSH_Extends (senv : SSHEnv) (henv : HandshakeEnv) (req : ConnectRequest)
    (st st2 : State) (resp : ConnectResponse)
    (h : ConnectSSH senv henv req st = some (st2, resp)) :
    Extends senv.traffic (resetForConnect senv.traffic st) st2 := by
  rw [ConnectSSH_eq] at h
  have e1 := connectSSH_Extends senv req (resetForConnect senv.traffic st)
  cases hc : connectSSH senv req (resetForConnect senv.traffic st) with
  | mk st3 err =>
    rw [hc] at h e1
    simp only at e1
    cases err with
    | some e =>
      simp only [Option.some.injEq, Prod.mk.injEq] at h
      obtain ⟨h, _⟩ := h
      subst h
      exact e1
    | none =>
      simp only at h
      cases hp : performHandshake senv.traffic henv st3 with
      | none => simp [hp] at h
      | some res =>
        obtain ⟨st4, r⟩ := res
        obtain ⟨e2, _⟩ := performHandshake_spec senv.traffic henv st3 st4 r hp
        cases r with
        | error e =>
          simp only [hp, Option.some.injEq, Prod.mk.injEq] at h
          obtain ⟨h, _⟩ := h
          subst h
          exact Extends_trans _ _ _ _ (Extends_trans _ _ _ _ e1 e2)
            (disconnectLocked_spec senv.traffic st4).2.2.2.1
        | ok resp2 =>
          simp only [hp, Option.some.injEq, Prod.mk.injEq] at h
          obtain ⟨h, _⟩ := h
          subst h
          exact Extends_trans _ _ _ _ e1 e2

theorem closeListeners_recount (visit : List (String × Listener)) (b1 b2 : Nat) :
    ∀ st : State,
      closeListeners visit { st with BytesSent := b1, BytesReceived := b2 }
        = { closeListeners visit st with BytesSent := b1, BytesReceived := b2 } := by
  induction visit with
  | nil =>
    intro st
    rfl
  | cons hd tl ih =>
    intro st
    obtain ⟨port, ln⟩ := hd
    exact ih { st with
      trace := st.trace ++ [Event.closeListener ln.id]
      listeners := mapDelete port st.listeners }

theorem resetForConnect_recount (t : Event → Nat × Nat) (st : State) (b1 b2 : Nat) :
    resetForConnect t { st with BytesSent := b1, BytesReceived := b2 }
      = resetForConnect t st := by
  unfold resetForConnect disconnectLocked
  show { closeSSH t (closeYamux t
      (closeListeners st.listeners { st with BytesSent := b1, BytesReceived := b2 })) with
      BytesSent := 0, BytesReceived := 0 } = _
  rw [closeListeners_recount]
  generalize closeListeners st.listeners st = s1
  obtain ⟨c, y, l, s, r, tr⟩ := s1
  cases c <;> cases y <;> rfl

theorem ConnectSSH_recount (senv : SSHEnv) (henv : HandshakeEnv) (req : ConnectRequest)
    (st : State) (b1 b2 : Nat) :
    ConnectSSH senv henv req { st with BytesSent := b1, BytesReceived := b2 }
      = ConnectSSH senv henv req st := by
  rw [ConnectSSH_eq, ConnectSSH_eq, resetForConnect_recount]

theorem StartForward_counters (listen : String → Except String Listener) (st : State)
    (localPort target : String) :
    (StartForward listen st localPort target).1.BytesSent = st.BytesSent
    ∧ (StartForward listen st localPort target).1.BytesReceived = st.BytesReceived := by
  unfold StartForward
  split
  · exact ⟨rfl, rfl⟩
  · cases listen localPort <;> exact ⟨rfl, rfl⟩

theorem StopForward_counters (st : State) (localPort : String) :
    (StopForward st localPort).1.BytesSent = st.BytesSent
    ∧ (StopForward st localPort).1.BytesReceived = st.BytesReceived := by
  unfold StopForward
  cases mapLookup localPort st.listeners <;> exact ⟨rfl, rfl⟩

theorem applyOp_Extends (st st2 : State) (traffic : Event → Nat × Nat)
    (h : applyOp st (Op.disconnect traffic) = some st2) : Extends traffic st st2 := by
  simp only [applyOp, Option.some.injEq] at h
  subst h
  exact (disconnectLocked_spec traffic st).2.2.2.1

theorem applyOp_not_decreased (st st2 : State) (op : Op) (h : applyOp st op = some st2)
    (hn : op.isConnectSSH = false)
    (hs : st.BytesSent + op.sent st < 18446744073709551616)
    (hr : st.BytesReceived + op.received st < 18446744073709551616) :
    st.BytesSent ≤ st2.BytesSent ∧ st.BytesReceived ≤ st2.BytesReceived := by
  cases op with
  | read n =>
    simp only [applyOp, Option.some.injEq] at h
    subst h
    simp only [Op.received] at hr
    refine ⟨Nat.le_refl _, ?_⟩
    show st.BytesReceived ≤ (st.BytesReceived + n) % 18446744073709551616
    omega
  | write n =>
    simp only [applyOp, Option.some.injEq] at h
    subst h
    simp only [Op.sent] at hs
    refine ⟨?_, Nat.le_refl _⟩
    show st.BytesSent ≤ (st.BytesSent + n) % 18446744073709551616
    omega
  | disconnect traffic =>
    have hE := applyOp_Extends st st2 traffic h
    simp only [applyOp, Option.some.injEq] at h
    simp only [Op.sent, Op.received, h] at hs hr
    obtain ⟨c1, c2⟩ := Extends_counters traffic st st2 hE (by omega) (by omega)
    rw [c1, c2]
    omega
  | startForward listen localPort target =>
    simp only [applyOp, Option.some.injEq] at h
    subst h
    obtain ⟨c1, c2⟩ := StartForward_counters listen st localPort target
    rw [c1, c2]
    exact ⟨Nat.le_refl _, Nat.le_refl _⟩
  | stopForward localPort =>
    simp only [applyOp, Option.some.injEq] at h
    subst h
    obtain ⟨c1, c2⟩ := StopForward_counters st localPort
    rw [c1, c2]
    exact ⟨Nat.le_refl _, Nat.le_refl _⟩
  | connectSSH senv henv req => simp [Op.isConnectSSH] at hn

theorem applyOp_connectSSH (st st2 : State) (senv : SSHEnv) (henv : HandshakeEnv)
    (req : ConnectRequest) (h : applyOp st (Op.connectSSH senv henv req) = some st2) :
    st2.BytesSent
        = sentOn senv.traffic (appended (disconnectLocked senv.traffic st) st2)
            % 18446744073709551616
    ∧ st2.BytesReceived
        = receivedOn senv.traffic (appended (disconnectLocked senv.traffic st) st2)
            % 18446744073709551616
    ∧ (∀ b1 b2, applyOp { st with BytesSent := b1, BytesReceived := b2 }
          (Op.connectSSH senv henv req) = some st2) := by
  simp only [applyOp] at h
  cases hc : ConnectSSH senv henv req st with
  | none => simp [hc] at h
  | some res =>
    obtain ⟨st3, resp⟩ := res
    simp only [hc, Option.map_some', Option.some.injEq] at h
    subst h
    have hE := ConnectSSH_Extends senv henv req st st3 resp hc
    obtain ⟨_, _, _, r4, r5, r6⟩ := resetForConnect_spec senv.traffic st
    obtain ⟨c1, c2⟩ := Extends_counters senv.traffic _ _ hE (by rw [r4]; decide)
      (by rw [r5]; decide)
    have happ : appended (resetForConnect senv.traffic st) st3
        = appended (disconnectLocked senv.traffic st) st3 := by
      unfold appended
      rw [r6]
    rw [r4, happ] at c1
    rw [r5, happ] at c2
    refine ⟨by rw [c1, Nat.zero_add], by rw [c2, Nat.zero_add], ?_⟩
    intro b1 b2
    simp only [applyOp, ConnectSSH_recount, hc, Option.map_some']

end client

namespace server

theorem le_AddInt64_one (old new : Int) (h : new = old ∨ new = AddInt64 old 1)
    (hi : isInt64 old) (hlt : old < maxInt64) : old ≤ new := by
  unfold isInt64 at hi
  unfold maxInt64 at hlt
  rcases h with h | h
  · omega
  · rw [h]
    unfold AddInt64
    rw [wrapInt64_of_inRange _ (by omega) (by omega)]
    omega

theorem le_wrap_bytes (old new : Int) (a b : Nat)
    (h : new = old ∨ new = wrapInt64 (old + a + b))
    (hi : isInt64 old) (hle : old + ((a + b : Nat) : Int) ≤ maxInt64) : old ≤ new := by
  unfold isInt64 at hi
  unfold maxInt64 at hle
  push_cast at hle
  rcases h with h | h
  · omega
  · rw [h, wrapInt64_of_inRange _ (by omega) (by omega)]
    omega

theorem Serve_counters (st : ServeState) (x : Nat) :
    ((Serve st x).metrics.ActiveStreams = st.metrics.ActiveStreams
        ∨ (Serve st x).metrics.ActiveStreams = AddInt64 st.metrics.ActiveStreams 1)
    ∧ ((Serve st x).metrics.TotalStreams = st.metrics.TotalStreams
        ∨ (Serve st x).metrics.TotalStreams = AddInt64 st.metrics.TotalStreams 1)
    ∧ (Serve st x).metrics.TotalBytes = st.metrics.TotalBytes
    ∧ (Serve st x).metrics.HandshakeCount = st.metrics.HandshakeCount
    ∧ (Serve st x).metrics.ConnectCount = st.metrics.ConnectCount
    ∧ (Serve st x).metrics.ConnectErrors = st.metrics.ConnectErrors
    ∧ ((Serve st x).metrics.DeniedRequests = st.metrics.DeniedRequests
        ∨ (Serve st x).metrics.DeniedRequests = AddInt64 st.metrics.DeniedRequests 1) := by
  by_cases h : st.server.streamLimitLen < st.server.streamLimitCap
  · rw [Serve_admits st x h]
    exact ⟨Or.inr rfl, Or.inr rfl, rfl, rfl, rfl, rfl, Or.inl rfl⟩
  · rw [Serve_rejects st x h]
    exact ⟨Or.inl rfl, Or.inl rfl, rfl, rfl, rfl, rfl, Or.inr rfl⟩

theorem releaseStream_metrics (st st2 : ServeState) (x : Nat)
    (h : releaseStream st x = some st2) :
    st2.metrics = { st.metrics with ActiveStreams := AddInt64 st.metrics.ActiveStreams (-1) } := by
  unfold releaseStream at h
  cases hr : receive st.server with
  | none => simp [hr] at h
  | some srv =>
    simp only [hr, Option.some.injEq] at h
    subst h
    rfl

/-- C13 fails on the code for `ActiveStreams`: with the handler of stream 7
admitted and `ActiveStreams = 1`, its `releaseStream` leaves
`ActiveStreams = 0`. -/
theorem C13_counterexample_ActiveStreams_decreases :
    (Serve { server := { config := { defaultConfig with MaxStreams := 1 },
                         streamLimitCap := 1, streamLimitLen := 0 }
             handlers := [], metrics := {}, trace := [] } 7).metrics.ActiveStreams = 1
    ∧ (applyOp
        (Serve { server := { config := { defaultConfig with MaxStreams := 1 },
                             streamLimitCap := 1, streamLimitLen := 0 }
                 handlers := [], metrics := {}, trace := [] } 7)
        (Op.release 7)).map (fun st => st.metrics.ActiveStreams) = some 0 := by
  decide

/-- C13, amended: while the counters stay below their `int64` and `uint64`
limits, no server operation (`Serve` admitting or rejecting a stream, the
body of `handleStream` handling a handshake or a connect, `releaseStream`)
lowers `TotalStreams`, `TotalBytes`, `HandshakeCount`, `ConnectCount`,
`ConnectErrors` or `DeniedRequests`; `ActiveStreams` is a gauge: an admission
adds one to it (and to `TotalStreams`), a rejection and the body of
`handleStream` leave it alone, and `releaseStream`, which changes no other
counter, takes one off it; no client operation other than `ConnectSSH` (a
read or a write on the counted connection, `Disconnect`, `StartForward`,
`StopForward`) lowers `BytesSent` or `BytesReceived`; and `ConnectSSH`
discards the values the two counters had (its result is the same whatever
they were) and returns with the octets written and read on the connection
during its outside calls since its reset to zero. -/
theorem C13_counters_not_decreased (st st2 : ServeState) (op : Op)
    (cst cst2 : client.State) (cop : client.Op)
    (hroom : st.metrics.room op.bytes) (hop : applyOp st op = some st2)
    (hsent : cst.BytesSent + cop.sent cst < 18446744073709551616)
    (hrecv : cst.BytesReceived + cop.received cst < 18446744073709551616)
    (hcop : client.applyOp cst cop = some cst2) :
    Metrics.notDecreased st.metrics st2.metrics
    ∧ ((∀ x, op ≠ Op.release x) → st.metrics.ActiveStreams ≤ st2.metrics.ActiveStreams)
    ∧ (∀ x, op = Op.accept x → admitted st x = true →
        st2.metrics.ActiveStreams = st.metrics.ActiveStreams + 1
        ∧ st2.metrics.TotalStreams = st.metrics.TotalStreams + 1)
    ∧ (∀ x, op = Op.accept x → admitted st x = false →
        st2.metrics.ActiveStreams = st.metrics.ActiveStreams
        ∧ st2.metrics.TotalStreams = st.metrics.TotalStreams)
    ∧ (∀ env, op = Op.handle env → st2.metrics.ActiveStreams = st.metrics.ActiveStreams)
    ∧ (∀ x, op = Op.release x →
        st2.metrics = { st.metrics with
          ActiveStreams := AddInt64 st.metrics.ActiveStreams (-1) }
        ∧ (-9223372036854775808 < st.metrics.ActiveStreams →
            st2.metrics.ActiveStreams = st.metrics.ActiveStreams - 1))
    ∧ (cop.isConnectSSH = false →
        cst.BytesSent ≤ cst2.BytesSent ∧ cst.BytesReceived ≤ cst2.BytesReceived)
    ∧ (∀ senv henv req, cop = client.Op.connectSSH senv henv req →
        cst2.BytesSent
            = client.sentOn senv.traffic
                (client.appended (client.disconnectLocked senv.traffic cst) cst2)
              % 18446744073709551616
        ∧ cst2.BytesReceived
            = client.receivedOn senv.traffic
                (client.appended (client.disconnectLocked senv.traffic cst) cst2)
              % 18446744073709551616
        ∧ (∀ b1 b2, client.applyOp { cst with BytesSent := b1, BytesReceived := b2 } cop
            = some cst2)) := by
  obtain ⟨a1, a2, t1, t2, b1, b2, hs1, hs2, cc1, cc2, e1, e2, d1, d2⟩ := hroom
  have hA1 : AddInt64 st.metrics.ActiveStreams 1 = st.metrics.ActiveStreams + 1 := by
    unfold isInt64 at a1
    unfold maxInt64 at a2
    unfold AddInt64
    exact wrapInt64_of_inRange _ (by omega) (by omega)
  have hT1 : AddInt64 st.metrics.TotalStreams 1 = st.metrics.TotalStreams + 1 := by
    unfold isInt64 at t1
    unfold maxInt64 at t2
    unfold AddInt64
    exact wrapInt64_of_inRange _ (by omega) (by omega)
  refine ⟨?_, ?_, ?_, ?_, ?_, ?_, ?_, ?_⟩
  · cases op with
    | accept x =>
      simp only [applyOp, Option.some.injEq] at hop
      subst hop
      obtain ⟨_, s2, s3, s4, s5, s6, s7⟩ := Serve_counters st x
      exact ⟨le_AddInt64_one _ _ s2 t1 t2, by rw [s3], by rw [s4], by rw [s5], by rw [s6],
        le_AddInt64_one _ _ s7 d1 d2⟩
    | handle env =>
      simp only [applyOp, Option.some.injEq] at hop
      subst hop
      obtain ⟨_, s2, s3, s4, s5, s6, s7⟩ :=
        handleStreamBody_counters st.server.config env st.metrics
      exact ⟨by rw [s2], le_wrap_bytes _ _ _ _ s5 b1 b2, le_AddInt64_one _ _ s3 hs1 hs2,
        le_AddInt64_one _ _ s4 cc1 cc2, le_AddInt64_one _ _ s6 e1 e2,
        le_AddInt64_one _ _ s7 d1 d2⟩
    | release x =>
      simp only [applyOp] at hop
      rw [releaseStream_metrics st st2 x hop]
      exact ⟨le_refl _, le_refl _, le_refl _, le_refl _, le_refl _, le_refl _⟩
  · intro hne
    cases op with
    | accept x =>
      simp only [applyOp, Option.some.injEq] at hop
      subst hop
      exact le_AddInt64_one _ _ (Serve_counters st x).1 a1 a2
    | handle env =>
      simp only [applyOp, Option.some.injEq] at hop
      subst hop
      rw [(handleStreamBody_counters st.server.config env st.metrics).1]
    | release x => exact absurd rfl (hne x)
  · intro x hx hadm
    subst hx
    simp only [applyOp, Option.some.injEq] at hop
    subst hop
    rw [Serve_admits st x ((admitted_iff st x).1 hadm)]
    exact ⟨hA1, hT1⟩
  · intro x hx hadm
    subst hx
    simp only [applyOp, Option.some.injEq] at hop
    subst hop
    have hnot : ¬ st.server.streamLimitLen < st.server.streamLimitCap := by
      intro hlt
      rw [(admitted_iff st x).2 hlt] at hadm
      exact absurd hadm (by decide)
    rw [Serve_rejects st x hnot]
    exact ⟨rfl, rfl⟩
  · intro env hx
    subst hx
    simp only [applyOp, Option.some.injEq] at hop
    subst hop
    exact (handleStreamBody_counters st.server.config env st.metrics).1
  · intro x hx
    subst hx
    have hm := releaseStream_metrics st st2 x hop
    refine ⟨hm, ?_⟩
    intro hlo
    rw [hm]
    show AddInt64 st.metrics.ActiveStreams (-1) = st.metrics.ActiveStreams - 1
    unfold isInt64 at a1
    unfold AddInt64
    rw [wrapInt64_of_inRange _ (by omega) (by omega)]
    omega
  · intro hn
    exact client.applyOp_not_decreased cst cst2 cop hcop hn hsent hrecv
  · intro senv henv req hx
    subst hx
    exact client.applyOp_connectSSH cst cst2 senv henv req hcop

/-- C13 amended, at a handler that proxies 3 octets up and 4 down, and a
`Disconnect` of a connected client whose closes write 40 octets. -/
theorem C13_counters_not_decreased_witness :
    Metrics.notDecreased { ActiveStreams := 1, TotalStreams := 1 }
        (handleStreamBody
          { defaultConfig with AllowedPorts := some [⟨"web", "10.0.0.5:80", "", false, 0⟩] }
          ⟨⟨fun _ => true, fun n => .number n⟩,
            .ok (protocol.marshalMessage ⟨fun _ => true, fun n => .number n⟩
              (client.connectMessage "10.0.0.5:80")), true,
            ⟨fun _ => none, fun _ => true, 3, 4, true⟩⟩
          { ActiveStreams := 1, TotalStreams := 1 }).1
    ∧ (2960 : Nat) ≤ (client.Disconnect (fun _ => (40, 0))
        { client.NewApp with
          sshClient := some 2, yamuxSession := some 4,
          BytesSent := 2960, BytesReceived := 2916 }).1.BytesSent :=
  have h := C13_counters_not_decreased
    { server := { config := { defaultConfig with
                    AllowedPorts := some [⟨"web", "10.0.0.5:80", "", false, 0⟩] },
                  streamLimitCap := 100, streamLimitLen := 1 }
      handlers := [7]
      metrics := { ActiveStreams := 1, TotalStreams := 1 }
      trace := [ServeEvent.goHandleStream 7] }
    _
    (Op.handle ⟨⟨fun _ => true, fun n => .number n⟩,
      .ok (protocol.marshalMessage ⟨fun _ => true, fun n => .number n⟩
        (client.connectMessage "10.0.0.5:80")), true,
      ⟨fun _ => none, fun _ => true, 3, 4, true⟩⟩)
    { client.NewApp with
      sshClient := some 2, yamuxSession := some 4, BytesSent := 2960, BytesReceived := 2916 }
    _ (client.Op.disconnect (fun _ => (40, 0)))
    (by
      unfold Metrics.room isInt64 maxInt64
      decide)
    rfl (by decide) (by decide) rfl
  ⟨h.1, (h.2.2.2.2.2.2.1 rfl).1⟩

end server
